import Mathlib

/-!
Shallow embedding of the markdown-to-docx conversion pipeline
(`src/index.ts`, `src/mdastToDocxModel.ts`, `src/tableProcessor.ts`) together
with theorems about its configuration resolver, numbering allocation, TOC
resolution, table column derivation and tree-to-model conversion.

Modelling conventions:
* TypeScript optional fields (`x?: T`) are `Option T`; an absent key and a key
  explicitly set to `undefined` are identified (the code only ever distinguishes
  them through `Object.keys`, which we model as "some field is set").
* JS numbers are `ℚ` (for style/page values) or `ℕ` (for counters and lengths).
* JS string truthiness (`"" is falsy`) is modelled explicitly where the source
  relies on it (`||` on strings and numbers).
-/

set_option linter.unusedVariables false

/-- JS truthiness of an optional string: `undefined` and `""` are falsy. -/
def jsTruthyStr : Option String → Bool
  | some s => s != ""
  | none => false

/-- JS `a || b` on optional strings (`""` falls through to `b`). -/
def jsOrStr (a b : Option String) : Option String :=
  if jsTruthyStr a then a else b

/-- JS `a || d` on an optional number (`0` is falsy). -/
def jsOrRat (a : Option ℚ) (d : ℚ) : ℚ :=
  match a with
  | some q => if q = 0 then d else q
  | none => d

/-- Field rule of the JS object spread `{...t, ...s}`: the right (section)
value wins whenever it is present. -/
def ovr {α : Type} (t s : Option α) : Option α :=
  match s with
  | some v => some v
  | none => t

/-- `"LEFT" | "CENTER" | "RIGHT" | "JUSTIFIED"` (types.ts `AlignmentOption`). -/
inductive AlignmentOption where
  | LEFT | CENTER | RIGHT | JUSTIFIED
deriving DecidableEq, Repr

/-- `"LTR" | "RTL"` (types.ts `Style.direction`). -/
inductive TextDirection where
  | LTR | RTL
deriving DecidableEq, Repr

/-- types.ts `SectionPageNumberDisplay`. -/
inductive SectionPageNumberDisplay where
  | none | current | currentAndTotal | currentAndSectionTotal
deriving DecidableEq, Repr

/-- types.ts `SectionPageNumberFormat`. -/
inductive SectionPageNumberFormat where
  | decimal | upperRoman | lowerRoman | upperLetter | lowerLetter
deriving DecidableEq, Repr

/-- types.ts `SectionPageNumberSeparator`. -/
inductive SectionPageNumberSeparator where
  | hyphen | period | colon | emDash | endash
deriving DecidableEq, Repr

/-- `"autofit" | "fixed"` (types.ts `Style.tableLayout`). -/
inductive TableLayoutOption where
  | autofit | fixed
deriving DecidableEq, Repr

/-- types.ts `SectionConfig.type`. -/
inductive SectionBreakType where
  | NEXT_PAGE | NEXT_COLUMN | CONTINUOUS | EVEN_PAGE | ODD_PAGE
deriving DecidableEq, Repr

/-- The runtime shape of a (partial) `Style` object (types.ts `Style`); all
fields optional, mirroring `Partial<Style>` views used by the resolver. -/
structure Style where
  titleSize : Option ℚ := none
  headingSpacing : Option ℚ := none
  paragraphSpacing : Option ℚ := none
  lineSpacing : Option ℚ := none
  fontFamily : Option String := none
  fontFamilly : Option String := none
  direction : Option TextDirection := none
  heading1Size : Option ℚ := none
  heading2Size : Option ℚ := none
  heading3Size : Option ℚ := none
  heading4Size : Option ℚ := none
  heading5Size : Option ℚ := none
  paragraphSize : Option ℚ := none
  listItemSize : Option ℚ := none
  codeBlockSize : Option ℚ := none
  blockquoteSize : Option ℚ := none
  tocFontSize : Option ℚ := none
  tocHeading1FontSize : Option ℚ := none
  tocHeading2FontSize : Option ℚ := none
  tocHeading3FontSize : Option ℚ := none
  tocHeading4FontSize : Option ℚ := none
  tocHeading5FontSize : Option ℚ := none
  tocHeading1Bold : Option Bool := none
  tocHeading2Bold : Option Bool := none
  tocHeading3Bold : Option Bool := none
  tocHeading4Bold : Option Bool := none
  tocHeading5Bold : Option Bool := none
  tocHeading1Italic : Option Bool := none
  tocHeading2Italic : Option Bool := none
  tocHeading3Italic : Option Bool := none
  tocHeading4Italic : Option Bool := none
  tocHeading5Italic : Option Bool := none
  paragraphAlignment : Option AlignmentOption := none
  headingAlignment : Option AlignmentOption := none
  heading1Alignment : Option AlignmentOption := none
  heading2Alignment : Option AlignmentOption := none
  heading3Alignment : Option AlignmentOption := none
  heading4Alignment : Option AlignmentOption := none
  heading5Alignment : Option AlignmentOption := none
  blockquoteAlignment : Option AlignmentOption := none
  tableLayout : Option TableLayoutOption := none
deriving DecidableEq, Repr

/-- The empty style object `{}`. -/
def emptyStyle : Style := {}

/-- JS spread `{...t, ...s}` on two style objects (fieldwise, right wins). -/
def mergeStyles (t s : Style) : Style where
  titleSize := ovr t.titleSize s.titleSize
  headingSpacing := ovr t.headingSpacing s.headingSpacing
  paragraphSpacing := ovr t.paragraphSpacing s.paragraphSpacing
  lineSpacing := ovr t.lineSpacing s.lineSpacing
  fontFamily := ovr t.fontFamily s.fontFamily
  fontFamilly := ovr t.fontFamilly s.fontFamilly
  direction := ovr t.direction s.direction
  heading1Size := ovr t.heading1Size s.heading1Size
  heading2Size := ovr t.heading2Size s.heading2Size
  heading3Size := ovr t.heading3Size s.heading3Size
  heading4Size := ovr t.heading4Size s.heading4Size
  heading5Size := ovr t.heading5Size s.heading5Size
  paragraphSize := ovr t.paragraphSize s.paragraphSize
  listItemSize := ovr t.listItemSize s.listItemSize
  codeBlockSize := ovr t.codeBlockSize s.codeBlockSize
  blockquoteSize := ovr t.blockquoteSize s.blockquoteSize
  tocFontSize := ovr t.tocFontSize s.tocFontSize
  tocHeading1FontSize := ovr t.tocHeading1FontSize s.tocHeading1FontSize
  tocHeading2FontSize := ovr t.tocHeading2FontSize s.tocHeading2FontSize
  tocHeading3FontSize := ovr t.tocHeading3FontSize s.tocHeading3FontSize
  tocHeading4FontSize := ovr t.tocHeading4FontSize s.tocHeading4FontSize
  tocHeading5FontSize := ovr t.tocHeading5FontSize s.tocHeading5FontSize
  tocHeading1Bold := ovr t.tocHeading1Bold s.tocHeading1Bold
  tocHeading2Bold := ovr t.tocHeading2Bold s.tocHeading2Bold
  tocHeading3Bold := ovr t.tocHeading3Bold s.tocHeading3Bold
  tocHeading4Bold := ovr t.tocHeading4Bold s.tocHeading4Bold
  tocHeading5Bold := ovr t.tocHeading5Bold s.tocHeading5Bold
  tocHeading1Italic := ovr t.tocHeading1Italic s.tocHeading1Italic
  tocHeading2Italic := ovr t.tocHeading2Italic s.tocHeading2Italic
  tocHeading3Italic := ovr t.tocHeading3Italic s.tocHeading3Italic
  tocHeading4Italic := ovr t.tocHeading4Italic s.tocHeading4Italic
  tocHeading5Italic := ovr t.tocHeading5Italic s.tocHeading5Italic
  paragraphAlignment := ovr t.paragraphAlignment s.paragraphAlignment
  headingAlignment := ovr t.headingAlignment s.headingAlignment
  heading1Alignment := ovr t.heading1Alignment s.heading1Alignment
  heading2Alignment := ovr t.heading2Alignment s.heading2Alignment
  heading3Alignment := ovr t.heading3Alignment s.heading3Alignment
  heading4Alignment := ovr t.heading4Alignment s.heading4Alignment
  heading5Alignment := ovr t.heading5Alignment s.heading5Alignment
  blockquoteAlignment := ovr t.blockquoteAlignment s.blockquoteAlignment
  tableLayout := ovr t.tableLayout s.tableLayout

/-- `Object.keys(style).length > 0` under the absent-=-undefined identification:
some field is present. -/
def styleHasAny (s : Style) : Bool :=
  s.titleSize.isSome || s.headingSpacing.isSome || s.paragraphSpacing.isSome ||
  s.lineSpacing.isSome || s.fontFamily.isSome || s.fontFamilly.isSome ||
  s.direction.isSome || s.heading1Size.isSome || s.heading2Size.isSome ||
  s.heading3Size.isSome || s.heading4Size.isSome || s.heading5Size.isSome ||
  s.paragraphSize.isSome || s.listItemSize.isSome || s.codeBlockSize.isSome ||
  s.blockquoteSize.isSome || s.tocFontSize.isSome ||
  s.tocHeading1FontSize.isSome || s.tocHeading2FontSize.isSome ||
  s.tocHeading3FontSize.isSome || s.tocHeading4FontSize.isSome ||
  s.tocHeading5FontSize.isSome || s.tocHeading1Bold.isSome ||
  s.tocHeading2Bold.isSome || s.tocHeading3Bold.isSome ||
  s.tocHeading4Bold.isSome || s.tocHeading5Bold.isSome ||
  s.tocHeading1Italic.isSome || s.tocHeading2Italic.isSome ||
  s.tocHeading3Italic.isSome || s.tocHeading4Italic.isSome ||
  s.tocHeading5Italic.isSome || s.paragraphAlignment.isSome ||
  s.headingAlignment.isSome || s.heading1Alignment.isSome ||
  s.heading2Alignment.isSome || s.heading3Alignment.isSome ||
  s.heading4Alignment.isSome || s.heading5Alignment.isSome ||
  s.blockquoteAlignment.isSome || s.tableLayout.isSome

/-- index.ts `normalizeStyleInput`: copies the deprecated `fontFamilly` alias
onto `fontFamily` when `style.fontFamily || style.fontFamilly` is truthy. -/
def normalizeStyleInput : Option Style → Option Style
  | Option.none => Option.none
  | some st =>
    let ff := jsOrStr st.fontFamily st.fontFamilly
    if jsTruthyStr ff then some { st with fontFamily := ff } else some st

/-- index.ts `resolveFontFamily`: `style.fontFamily || style.fontFamilly`. -/
def resolveFontFamily (st : Style) : Option String :=
  jsOrStr st.fontFamily st.fontFamilly

/-- types.ts `HeaderFooterContent`. -/
structure HeaderFooterContent where
  text : Option String := none
  alignment : Option AlignmentOption := none
  pageNumberDisplay : Option SectionPageNumberDisplay := none
deriving DecidableEq, Repr

/-- The three runtime values a header/footer slot can take inside a group:
absent (`undefined`), explicit `null`, or a content object. -/
inductive SlotVal where
  | undefined
  | null
  | obj (c : HeaderFooterContent)
deriving DecidableEq, Repr

/-- types.ts `HeaderFooterGroup`: the three slots; an absent key is `.undefined`. -/
structure HeaderFooterGroup where
  default : SlotVal := .undefined
  first : SlotVal := .undefined
  even : SlotVal := .undefined
deriving DecidableEq, Repr

/-- JS spread `{...tc, ...sc}` on two slot content objects. -/
def mergeHeaderFooterContent (tc sc : HeaderFooterContent) : HeaderFooterContent where
  text := ovr tc.text sc.text
  alignment := ovr tc.alignment sc.alignment
  pageNumberDisplay := ovr tc.pageNumberDisplay sc.pageNumberDisplay

/-- index.ts `mergeHeaderFooterSlot`: explicit `null` wins, `undefined`
inherits, an object shallow-merges over an inherited object. -/
def mergeHeaderFooterSlot (templateSlot sectionSlot : SlotVal) : SlotVal :=
  match sectionSlot with
  | .null => .null
  | .undefined => templateSlot
  | .obj sc =>
    match templateSlot with
    | .obj tc => .obj (mergeHeaderFooterContent tc sc)
    | _ => .obj sc

/-- Optional-chaining read `group?.slot` used by `mergeHeaderFooterGroup`. -/
def slotOf (g : Option HeaderFooterGroup) (f : HeaderFooterGroup → SlotVal) : SlotVal :=
  match g with
  | some g => f g
  | Option.none => .undefined

/-- index.ts `mergeHeaderFooterGroup`. -/
def mergeHeaderFooterGroup (templateGroup sectionGroup : Option HeaderFooterGroup) :
    Option HeaderFooterGroup :=
  if templateGroup.isNone && sectionGroup.isNone then Option.none
  else
    let merged : HeaderFooterGroup :=
      { default := mergeHeaderFooterSlot (slotOf templateGroup (·.default))
          (slotOf sectionGroup (·.default))
        first := mergeHeaderFooterSlot (slotOf templateGroup (·.first))
          (slotOf sectionGroup (·.first))
        even := mergeHeaderFooterSlot (slotOf templateGroup (·.even))
          (slotOf sectionGroup (·.even)) }
    if merged.default = .undefined && merged.first = .undefined && merged.even = .undefined then
      Option.none
    else some merged

/-- types.ts `SectionPageMargins`. -/
structure SectionPageMargins where
  top : Option ℚ := none
  right : Option ℚ := none
  bottom : Option ℚ := none
  left : Option ℚ := none
  header : Option ℚ := none
  footer : Option ℚ := none
  gutter : Option ℚ := none
deriving DecidableEq, Repr

/-- `"PORTRAIT" | "LANDSCAPE"`. -/
inductive PageOrientationOption where
  | PORTRAIT | LANDSCAPE
deriving DecidableEq, Repr

/-- types.ts `SectionPageSize`. -/
structure SectionPageSize where
  width : Option ℚ := none
  height : Option ℚ := none
  orientation : Option PageOrientationOption := none
deriving DecidableEq, Repr

/-- types.ts `SectionPageConfig`. -/
structure SectionPageConfig where
  margin : Option SectionPageMargins := none
  size : Option SectionPageSize := none
deriving DecidableEq, Repr

/-- types.ts `SectionPageNumbering`. -/
structure SectionPageNumbering where
  start : Option ℚ := none
  formatType : Option SectionPageNumberFormat := none
  separator : Option SectionPageNumberSeparator := none
  display : Option SectionPageNumberDisplay := none
  alignment : Option AlignmentOption := none
deriving DecidableEq, Repr

/-- types.ts `SectionConfig` (= `SectionTemplate`). -/
structure SectionConfig where
  style : Option Style := none
  page : Option SectionPageConfig := none
  headers : Option HeaderFooterGroup := none
  footers : Option HeaderFooterGroup := none
  pageNumbering : Option SectionPageNumbering := none
  titlePage : Option Bool := none
  type : Option SectionBreakType := none
deriving DecidableEq, Repr

/-- The empty section configuration `{}`. -/
def emptySectionConfig : SectionConfig := {}

/-- JS spread on two margin objects. -/
def mergeMargins (t s : SectionPageMargins) : SectionPageMargins where
  top := ovr t.top s.top
  right := ovr t.right s.right
  bottom := ovr t.bottom s.bottom
  left := ovr t.left s.left
  header := ovr t.header s.header
  footer := ovr t.footer s.footer
  gutter := ovr t.gutter s.gutter

/-- `Object.keys(margins).length > 0`. -/
def marginsHasAny (m : SectionPageMargins) : Bool :=
  m.top.isSome || m.right.isSome || m.bottom.isSome || m.left.isSome ||
  m.header.isSome || m.footer.isSome || m.gutter.isSome

/-- JS spread on two page-size objects. -/
def mergeSizes (t s : SectionPageSize) : SectionPageSize where
  width := ovr t.width s.width
  height := ovr t.height s.height
  orientation := ovr t.orientation s.orientation

/-- `Object.keys(size).length > 0`. -/
def sizeHasAny (s : SectionPageSize) : Bool :=
  s.width.isSome || s.height.isSome || s.orientation.isSome

/-- JS spread on two page-numbering objects. -/
def mergePageNumbering (t s : SectionPageNumbering) : SectionPageNumbering where
  start := ovr t.start s.start
  formatType := ovr t.formatType s.formatType
  separator := ovr t.separator s.separator
  display := ovr t.display s.display
  alignment := ovr t.alignment s.alignment

/-- `Object.keys(pageNumbering).length > 0`. -/
def pageNumberingHasAny (p : SectionPageNumbering) : Bool :=
  p.start.isSome || p.formatType.isSome || p.separator.isSome ||
  p.display.isSome || p.alignment.isSome

/-- `Object.keys(page).length > 0`. -/
def pageHasAny (p : SectionPageConfig) : Bool :=
  p.margin.isSome || p.size.isSome

/-- index.ts `mergeSectionConfig`: the template/section shallow-merge with
per-key merging of the nested style, page, margin, size and page-numbering
objects and the dedicated header/footer group merge. -/
def mergeSectionConfig (template sectionOverride : Option SectionConfig) : SectionConfig :=
  let tc := template.getD emptySectionConfig
  let sc := sectionOverride.getD emptySectionConfig
  let mergedStyle := mergeStyles (tc.style.getD emptyStyle) (sc.style.getD emptyStyle)
  let mergedPageMargins :=
    mergeMargins ((tc.page.bind (·.margin)).getD {}) ((sc.page.bind (·.margin)).getD {})
  let mergedPageSize :=
    mergeSizes ((tc.page.bind (·.size)).getD {}) ((sc.page.bind (·.size)).getD {})
  let mergedPage : SectionPageConfig :=
    { margin :=
        if marginsHasAny mergedPageMargins then some mergedPageMargins
        else ovr (tc.page.bind (·.margin)) (sc.page.bind (·.margin))
      size :=
        if sizeHasAny mergedPageSize then some mergedPageSize
        else ovr (tc.page.bind (·.size)) (sc.page.bind (·.size)) }
  let mergedPageNumbering :=
    mergePageNumbering (tc.pageNumbering.getD {}) (sc.pageNumbering.getD {})
  let mergedHeaders := mergeHeaderFooterGroup tc.headers sc.headers
  let mergedFooters := mergeHeaderFooterGroup tc.footers sc.footers
  { style :=
      if styleHasAny mergedStyle then some mergedStyle else ovr tc.style sc.style
    page :=
      if pageHasAny mergedPage then some mergedPage else ovr tc.page sc.page
    pageNumbering :=
      if pageNumberingHasAny mergedPageNumbering then some mergedPageNumbering
      else ovr tc.pageNumbering sc.pageNumbering
    headers :=
      match mergedHeaders with
      | some g => some g
      | Option.none => ovr tc.headers sc.headers
    footers :=
      match mergedFooters with
      | some g => some g
      | Option.none => ovr tc.footers sc.footers
    titlePage := ovr tc.titlePage sc.titlePage
    type := ovr tc.type sc.type }

/-- The docx `AlignmentType` constants (values of `AlignmentType[...]`). -/
inductive AlignmentJS where
  | left | center | right | both
deriving DecidableEq, Repr

/-- The table `AlignmentType[resolved]` lookup. -/
def alignmentTypeOf : AlignmentOption → AlignmentJS
  | .LEFT => .left
  | .CENTER => .center
  | .RIGHT => .right
  | .JUSTIFIED => .both

/-- index.ts `resolveAlignment` (fallback defaults to `"LEFT"` at call sites
that omit it). -/
def resolveAlignment (alignment : Option AlignmentOption) (fallback : AlignmentOption) :
    AlignmentJS :=
  alignmentTypeOf (alignment.getD fallback)

/-- A child of the docx `TextRun` in a header/footer paragraph: plain text or
one of the `PageNumber` field constants. -/
inductive RunChild where
  | str (s : String)
  | pageCurrent
  | pageTotal
  | pageTotalSection
deriving DecidableEq, Repr

/-- index.ts `buildPageNumberChildren`. -/
def buildPageNumberChildren : SectionPageNumberDisplay → List RunChild
  | .current => [.pageCurrent]
  | .currentAndTotal => [.pageCurrent, .str " / ", .pageTotal]
  | .currentAndSectionTotal => [.pageCurrent, .str " / ", .pageTotalSection]
  | .none => []

/-- The observable parts of the `TextRun` built by
`createHeaderFooterParagraph`. -/
structure HFTextRun where
  children : List RunChild
  size : ℚ
  font : Option String
  rightToLeft : Bool
deriving DecidableEq, Repr

/-- The observable parts of the `Paragraph` built by
`createHeaderFooterParagraph`. -/
structure HFParagraph where
  alignment : AlignmentJS
  bidirectional : Bool
  run : HFTextRun
deriving DecidableEq, Repr

/-- index.ts `createHeaderFooterParagraph`. -/
def createHeaderFooterParagraph (slot : HeaderFooterContent) (style : Style)
    (fallbackDisplay : SectionPageNumberDisplay) (fallbackAlignment : AlignmentOption) :
    HFParagraph :=
  let display := slot.pageNumberDisplay.getD fallbackDisplay
  let alignment := resolveAlignment slot.alignment fallbackAlignment
  let text := slot.text.getD ""
  let runChildren :=
    (if text.length > 0 then
      [RunChild.str text] ++ (if display != .none then [RunChild.str " "] else [])
    else []) ++ buildPageNumberChildren display
  let runChildren := if runChildren.isEmpty then [RunChild.str ""] else runChildren
  { alignment := alignment
    bidirectional := style.direction == some .RTL
    run :=
      { children := runChildren
        size := jsOrRat style.paragraphSize 24
        font := resolveFontFamily style
        rightToLeft := style.direction == some .RTL } }

/-- The observable content of a docx `Header`. -/
structure HeaderModel where
  children : List HFParagraph
deriving DecidableEq, Repr

/-- The observable content of a docx `Footer`. -/
structure FooterModel where
  children : List HFParagraph
deriving DecidableEq, Repr

/-- index.ts `createHeaderFromSlot`: `undefined` and `null` slots yield no
header at all. -/
def createHeaderFromSlot (slot : SlotVal) (style : Style) : Option HeaderModel :=
  match slot with
  | .undefined => Option.none
  | .null => Option.none
  | .obj c => some ⟨[createHeaderFooterParagraph c style .none .LEFT]⟩

/-- index.ts `createFooterFromSlot`. -/
def createFooterFromSlot (slot : SlotVal) (style : Style)
    (defaultDisplay : SectionPageNumberDisplay) (defaultAlignment : AlignmentOption) :
    Option FooterModel :=
  match slot with
  | .undefined => Option.none
  | .null => Option.none
  | .obj c => some ⟨[createHeaderFooterParagraph c style defaultDisplay defaultAlignment]⟩

/-- The `headers` object handed to the serialization backend. -/
structure HeadersOut where
  default : Option HeaderModel := none
  first : Option HeaderModel := none
  even : Option HeaderModel := none
deriving DecidableEq, Repr

/-- The `footers` object handed to the serialization backend. -/
structure FootersOut where
  default : Option FooterModel := none
  first : Option FooterModel := none
  even : Option FooterModel := none
deriving DecidableEq, Repr

/-- index.ts `buildHeaders`. -/
def buildHeaders (group : Option HeaderFooterGroup) (style : Style) : Option HeadersOut :=
  match group with
  | Option.none => Option.none
  | some g =>
    let d := if g.default != .undefined then createHeaderFromSlot g.default style else none
    let f := if g.first != .undefined then createHeaderFromSlot g.first style else none
    let e := if g.even != .undefined then createHeaderFromSlot g.even style else none
    if d.isSome || f.isSome || e.isSome then some ⟨d, f, e⟩ else Option.none

/-- index.ts `buildFooters`, including the auto-generated page-number footer
for sections without a footers group. -/
def buildFooters (sectionConfig : SectionConfig) (style : Style) : Option FootersOut :=
  let defaultDisplay := (sectionConfig.pageNumbering.bind (·.display)).getD .current
  let defaultAlignment := (sectionConfig.pageNumbering.bind (·.alignment)).getD .CENTER
  match sectionConfig.footers with
  | Option.none =>
    if defaultDisplay = .none then Option.none
    else
      let autoFooter := createFooterFromSlot
        (.obj { pageNumberDisplay := some defaultDisplay, alignment := some defaultAlignment })
        style defaultDisplay defaultAlignment
      match autoFooter with
      | some fo => some { default := some fo }
      | Option.none => Option.none
  | some g =>
    let d := if g.default != .undefined then
        createFooterFromSlot g.default style defaultDisplay defaultAlignment
      else none
    let f := if g.first != .undefined then
        createFooterFromSlot g.first style defaultDisplay defaultAlignment
      else none
    let e := if g.even != .undefined then
        createFooterFromSlot g.even style defaultDisplay defaultAlignment
      else none
    if d.isSome || f.isSome || e.isSome then some ⟨d, f, e⟩ else Option.none

/-- JS `String.prototype.trim` on the standard whitespace characters,
implemented on the char list so that it evaluates in the kernel. -/
def jsTrim (s : String) : String :=
  String.mk (((s.toList.dropWhile Char.isWhitespace).reverse.dropWhile
    Char.isWhitespace).reverse)

/-- Substring test on char lists (`String.prototype.includes`). -/
def listHasInfixAux : List Char → List Char → Bool
  | [], ps => ps.isEmpty
  | c :: t, ps => ps.isPrefixOf (c :: t) || listHasInfixAux t ps

/-- JS `s.includes(pat)`. -/
def strContains (s pat : String) : Bool :=
  listHasInfixAux s.toList pat.toList

/-- The capture behaviour of the lazy regex `/COMMENT:\s*(.+?)(?:-->)?/` after
a `COMMENT:` occurrence: greedy `\s*` followed by a single lazily matched
non-line-terminator character, with backtracking into the whitespace. -/
def regexCommentCapture (cs : List Char) : Option Char :=
  let ws := (cs.takeWhile Char.isWhitespace).length
  if h : ws < cs.length then some (cs.get ⟨ws, h⟩)
  else (cs.reverse).find? (fun ch => ch != '\n' && ch != '\r')

/-- Scan for the leftmost `COMMENT:` occurrence whose tail admits the capture
above (the JS regex engine moves on to later occurrences on failure). -/
def commentMatch : List Char → Option Char
  | [] => Option.none
  | c :: t =>
    if ("COMMENT:".toList).isPrefixOf (c :: t) then
      match regexCommentCapture ((c :: t).drop 8) with
      | some ch => some ch
      | Option.none => commentMatch t
    else commentMatch t

/-- `value.match(/COMMENT:\s*(.+?)(?:-->)?/)` followed by `match[1].trim()`. -/
def extractCommentValue (s : String) : Option String :=
  match commentMatch s.toList with
  | some ch => some (jsTrim (String.mk [ch]))
  | Option.none => Option.none

/-! The mdast syntax-tree node kinds consumed by the converter
(mdastToDocxModel.ts); `other` stands for any unrecognized node kind, with its
optional `value` property. -/
mutual
inductive MdNode where
  | heading (depth : Nat) (children : List MdNode)
  | paragraph (children : List MdNode)
  | list (ordered : Bool) (children : List MdListItem)
  | code (lang : Option String) (value : String)
  | blockquote (children : List MdNode)
  | image (alt : Option String) (url : Option String)
  | table (children : List MdTableRow)
  | text (value : String)
  | emphasis (children : List MdNode)
  | strong (children : List MdNode)
  | inlineCode (value : String)
  | link (url : String) (children : List MdNode)
  | br
  | html (value : String)
  | thematicBreak
  | other (value : Option String)

inductive MdListItem where
  | mk (children : List MdNode)

inductive MdTableRow where
  | mk (children : List MdTableCell)

inductive MdTableCell where
  | mk (children : List MdNode)
end

/-- docxModel.ts `DocxTextNode`. -/
structure DocxTextNode where
  value : String
  bold : Option Bool := none
  italic : Option Bool := none
  code : Option Bool := none
  link : Option String := none
deriving DecidableEq, Repr

/-! docxModel.ts block node variants (`DocxBlockNode`) and list items. -/
mutual
inductive DocxBlock where
  | paragraph (children : List DocxTextNode)
  | heading (level : Nat) (children : List DocxTextNode)
  | list (ordered : Bool) (children : List DocxListItem) (sequenceId : Option Nat)
  | codeBlock (language : Option String) (value : String)
  | blockquote (children : List DocxBlock)
  | image (alt : String) (url : String)
  | table (headers : List String) (rows : List (List String))
  | comment (value : String)
  | pageBreak
  | tocPlaceholder

inductive DocxListItem where
  | mk (children : List DocxBlock)
end

/-! mdastToDocxModel.ts `processInlineNodes`: per-node dispatch plus the
default arm that flattens any value-bearing unknown node to plain text. -/
mutual
def processInlineNode (n : MdNode) : List DocxTextNode :=
  match n with
  | .text v => [{ value := v }]
  | .emphasis ch => (processInlineNodes ch).map (fun c => { c with italic := some true })
  | .strong ch => (processInlineNodes ch).map (fun c => { c with bold := some true })
  | .inlineCode v => [{ value := v, code := some true }]
  | .link url ch => (processInlineNodes ch).map (fun c => { c with link := some url })
  | .br => [{ value := "\n" }]
  | .html v => if v = "" then [] else [{ value := v }]
  | .code _ v => if v = "" then [] else [{ value := v }]
  | .other (some s) => if s = "" then [] else [{ value := s }]
  | _ => []

def processInlineNodes (ns : List MdNode) : List DocxTextNode :=
  match ns with
  | [] => []
  | n :: rest => processInlineNode n ++ processInlineNodes rest
end

/-! mdastToDocxModel.ts `extractTextFromInlineNodes`. -/
mutual
def extractTextFromInlineNode (n : MdNode) : String :=
  match n with
  | .text v => v
  | .emphasis ch => extractTextFromInlineNodes ch
  | .strong ch => extractTextFromInlineNodes ch
  | .inlineCode v => v
  | .link _ ch => extractTextFromInlineNodes ch
  | .br => "\n"
  | .html v => v
  | .code _ v => v
  | .other (some s) => s
  | _ => ""

def extractTextFromInlineNodes (ns : List MdNode) : String :=
  match ns with
  | [] => ""
  | n :: rest => extractTextFromInlineNode n ++ extractTextFromInlineNodes rest
end

/-- mdastToDocxModel.ts `extractTextFromTableCell` (paragraph and text
children contribute text; everything else is skipped; result trimmed). -/
def extractCellPieces : List MdNode → String
  | [] => ""
  | .paragraph ch :: rest => extractTextFromInlineNodes ch ++ extractCellPieces rest
  | .text v :: rest => v ++ extractCellPieces rest
  | _ :: rest => extractCellPieces rest

/-- Cell text extraction with the final `.trim()`. -/
def extractTextFromTableCell : MdTableCell → String
  | .mk ch => jsTrim (extractCellPieces ch)

/-- mdastToDocxModel.ts `processTable`: first row is the header, the rest are
data rows; each cell is flattened to plain text. -/
def processTableNode (rows : List MdTableRow) : DocxBlock :=
  match rows with
  | [] => .table [] []
  | .mk headerCells :: rest =>
    .table (headerCells.map extractTextFromTableCell)
      (rest.map (fun r => match r with | .mk cs => cs.map extractTextFromTableCell))

/-- mdastToDocxModel.ts `processParagraph`: a paragraph consisting of exactly
one image is promoted to a block image. -/
def processParagraphNode (children : List MdNode) : DocxBlock :=
  match children with
  | [.image alt url] => .image (alt.getD "") (url.getD "")
  | _ => .paragraph (processInlineNodes children)

/-- The `case "html"` arm of mdastToDocxModel.ts `processNode` (reached for
html nodes nested below the top level). -/
def processHtmlNested (v : String) : Option DocxBlock :=
  if jsTrim v = "<!--COMMENT:" then Option.none
  else if strContains v "COMMENT:" then
    match extractCommentValue v with
    | some c => some (.comment c)
    | Option.none =>
      if strContains v "\\pagebreak" || strContains v "pagebreak" then some .pageBreak
      else Option.none
  else if strContains v "\\pagebreak" || strContains v "pagebreak" then some .pageBreak
  else Option.none

/-! mdastToDocxModel.ts `processNode` / `processList` / `processBlockquote`
and the list-item walk, with the `numberedListSequenceId` counter threaded
explicitly (the closure's mutable counter; each ordered list is visited once,
so the first-visit map lookup always allocates). -/
mutual
def processNode : Nat → MdNode → Nat × Option DocxBlock
  | c, .heading depth ch => (c, some (.heading depth (processInlineNodes ch)))
  | c, .paragraph ch => (c, some (processParagraphNode ch))
  | c, .list ordered items =>
    let r := processListNode c ordered items
    (r.1, some r.2)
  | c, .code lang v => (c, some (.codeBlock (jsOrStr lang Option.none) v))
  | c, .blockquote ch =>
    let r := processBlocks c ch
    (r.1, some (.blockquote r.2))
  | c, .image alt url => (c, some (.image (alt.getD "") (url.getD "")))
  | c, .table rows => (c, some (processTableNode rows))
  | c, .html v => (c, processHtmlNested v)
  | c, _ => (c, Option.none)
termination_by c n => (sizeOf n, 0)

def processBlocks : Nat → List MdNode → Nat × List DocxBlock
  | c, [] => (c, [])
  | c, n :: rest =>
    let r := processNode c n
    let rs := processBlocks r.1 rest
    (rs.1, r.2.toList ++ rs.2)
termination_by c ns => (sizeOf ns, 0)

def processListNode (c : Nat) (ordered : Bool) (items : List MdListItem) :
    Nat × DocxBlock :=
  let c1 := if ordered then c + 1 else c
  let r := processItems c1 items
  (r.1, .list ordered r.2 (if ordered then some c1 else Option.none))
termination_by (sizeOf items, 1)

def processItems : Nat → List MdListItem → Nat × List DocxListItem
  | c, [] => (c, [])
  | c, .mk ch :: rest =>
    let r := processItemChildren c ch
    let childrenOut := if r.2.isEmpty then [DocxBlock.paragraph []] else r.2
    let rs := processItems r.1 rest
    (rs.1, .mk childrenOut :: rs.2)
termination_by c items => (sizeOf items, 0)

def processItemChildren : Nat → List MdNode → Nat × List DocxBlock
  | c, [] => (c, [])
  | c, .list o items :: rest =>
    let r := processListNode c o items
    let rs := processItemChildren r.1 rest
    (rs.1, r.2 :: rs.2)
  | c, .paragraph ch :: rest =>
    let rs := processItemChildren c rest
    (rs.1, .paragraph (processInlineNodes ch) :: rs.2)
  | c, n :: rest =>
    let r := processNode c n
    let rs := processItemChildren r.1 rest
    (rs.1, r.2.toList ++ rs.2)
termination_by c ns => (sizeOf ns, 0)
end

/-- Is this child a text node (`c.type === "text"`)? -/
def isTextNode : MdNode → Bool
  | .text _ => true
  | _ => false

/-- The `value` of a text node (only applied to text nodes). -/
def textValueOf : MdNode → String
  | .text v => v
  | _ => ""

/-- Top-level paragraph text:
`children.filter(text).map(value).join("").trim()`. -/
def topTextContent (ch : List MdNode) : String :=
  jsTrim (String.join ((ch.filter isTextNode).map textValueOf))

/-- The top-level special-casing in mdastToDocxModel.ts (TOC and page-break
paragraphs, html comment/page-break markers, html skipping). `Option.none`
means "not special, dispatch to processNode"; `some Option.none` means "skip
this child"; `some (some b)` pushes `b` directly. -/
def rootSpecialCase : MdNode → Option (Option DocxBlock)
  | .paragraph ch =>
    let t := topTextContent ch
    if t = "[TOC]" then some (some .tocPlaceholder)
    else if t = "\\pagebreak" then some (some .pageBreak)
    else Option.none
  | .html v =>
    if strContains v "COMMENT:" then
      match extractCommentValue v with
      | some cm => some (some (.comment cm))
      | Option.none =>
        if strContains v "pagebreak" || strContains v "\\pagebreak" then
          some (some .pageBreak)
        else some Option.none
    else if strContains v "pagebreak" || strContains v "\\pagebreak" then
      some (some .pageBreak)
    else some Option.none
  | _ => Option.none

/-- The top-level loop of mdastToDocxModel.ts over `root.children`, threading
the numbered-list sequence counter. -/
def processRoot (c : Nat) : List MdNode → Nat × List DocxBlock
  | [] => (c, [])
  | n :: rest =>
    match rootSpecialCase n with
    | some ob =>
      let rs := processRoot c rest
      (rs.1, ob.toList ++ rs.2)
    | Option.none =>
      let r := processNode c n
      let rs := processRoot r.1 rest
      (rs.1, r.2.toList ++ rs.2)

/-- docxModel.ts `DocxDocumentModel`. -/
structure DocxDocumentModel where
  children : List DocxBlock

/-- mdastToDocxModel.ts `mdastToDocxModel` (its `style`/`options` parameters
are unused by the conversion and omitted here); the root is its child list. -/
def mdastToDocxModel (root : List MdNode) : DocxDocumentModel :=
  ⟨(processRoot 0 root).2⟩

/-- The final value of the converter's `numberedListSequenceId` counter for
one section: the number of ordered lists it allocated ids to. -/
def mdastLocalSeqCount (root : List MdNode) : Nat :=
  (processRoot 0 root).1

/-!
The ordered-list sequence ids stored in a converted model, in the order they
were allocated (a list's own id precedes the ids of lists nested in its
items). -/
mutual
def blockSeqIds : DocxBlock → List Nat
  | .list _ items sid => sid.toList ++ itemsSeqIds items
  | .blockquote ch => blocksSeqIds ch
  | _ => []
termination_by b => (sizeOf b, 0)

def blocksSeqIds : List DocxBlock → List Nat
  | [] => []
  | b :: rest => blockSeqIds b ++ blocksSeqIds rest
termination_by bs => (sizeOf bs, 0)

def itemsSeqIds : List DocxListItem → List Nat
  | [] => []
  | .mk ch :: rest => blocksSeqIds ch ++ itemsSeqIds rest
termination_by its => (sizeOf its, 0)
end

/-- Modelled from the spec: `modelToDocx` (src/modelToDocx.ts is absent from
the source tree; only its caller in index.ts survives). Per spec section 4.3
a section's ordered lists are numbered starting at `offset + 1`, i.e. every
local sequence id is shifted by `sequenceIdOffset`, and the renderer reports
the resulting maximum (`offset` plus the section's local maximum) as
`maxSequenceId` so the next section can offset past it. Returns the global
ids of the section's ordered lists (in allocation order) and the reported
`maxSequenceId`. -/
def modelToDocxNumbering (model : DocxDocumentModel) (sequenceIdOffset : Nat) :
    List Nat × Nat :=
  let ids := (blocksSeqIds model.children).map (fun i => sequenceIdOffset + i)
  (ids, sequenceIdOffset + (blocksSeqIds model.children).foldr max 0)

/-- The per-section loop of index.ts `parseToDocxOptions`: each section is
converted, rendered with `sequenceIdOffset := maxSequenceId`, and
`maxSequenceId = Math.max(maxSequenceId, renderedModel.maxSequenceId)`.
Returns each section's global ordered-list ids plus the final
`maxSequenceId`. -/
def assembleSectionsFrom (m : Nat) : List (List MdNode) → List (List Nat) × Nat
  | [] => ([], m)
  | sec :: rest =>
    let model := mdastToDocxModel sec
    let rendered := modelToDocxNumbering model m
    let m1 := max m rendered.2
    let rs := assembleSectionsFrom m1 rest
    (rendered.1 :: rs.1, rs.2)

/-- One assembly pass over the given sections (counters start at zero). -/
def assembleSections (sections : List (List MdNode)) : List (List Nat) × Nat :=
  assembleSectionsFrom 0 sections

/-- The numbering-configuration loop of index.ts `parseToDocxOptions`:
`for (let i = 1; i <= maxSequenceId; i++)` emitting reference
`numbered-list-i`. -/
def numberingConfigRefs (maxSequenceId : Nat) : List String :=
  (List.range' 1 maxSequenceId).map (fun i => "numbered-list-" ++ toString i)

/-- index.ts `TocHeadingEntry`. -/
structure TocHeadingEntry where
  text : String
  level : Nat
  bookmarkId : String
deriving DecidableEq, Repr

/-- A paragraph of the generated TOC block: the title paragraph or one entry
per registered heading (index.ts `buildTocContent`). -/
inductive TocParagraph where
  | title
  | entry (text : String) (anchor : String) (fontSize : ℚ) (bold : Bool)
      (italic : Bool) (indentLeft : ℤ) (font : Option String)
deriving DecidableEq, Repr

/-- JS `a || b` on two optional numbers (`0` and `undefined` are falsy). -/
def jsOrRatOpt (a b : Option ℚ) : Option ℚ :=
  match a with
  | some q => if q = 0 then b else some q
  | Option.none => b

/-- The `!fontSize` fallback of `buildTocContent`:
`paragraphSize ? paragraphSize - (level-1)*2 : 24 - (level-1)*2`. -/
def tocFallbackSize (style : Style) (level : Nat) : ℚ :=
  match style.paragraphSize with
  | some p => if p = 0 then 24 - ((level : ℚ) - 1) * 2 else p - ((level : ℚ) - 1) * 2
  | Option.none => 24 - ((level : ℚ) - 1) * 2

/-- The font-size/bold/italic switch of `buildTocContent` for one heading. -/
def tocEntryStyleFor (style : Style) (level : Nat) : ℚ × Bool × Bool :=
  let triple : Option ℚ × Bool × Bool :=
    match level with
    | 1 => (jsOrRatOpt style.tocHeading1FontSize style.tocFontSize,
        style.tocHeading1Bold.getD true, style.tocHeading1Italic.getD false)
    | 2 => (jsOrRatOpt style.tocHeading2FontSize style.tocFontSize,
        style.tocHeading2Bold.getD false, style.tocHeading2Italic.getD false)
    | 3 => (jsOrRatOpt style.tocHeading3FontSize style.tocFontSize,
        style.tocHeading3Bold.getD false, style.tocHeading3Italic.getD false)
    | 4 => (jsOrRatOpt style.tocHeading4FontSize style.tocFontSize,
        style.tocHeading4Bold.getD false, style.tocHeading4Italic.getD false)
    | 5 => (jsOrRatOpt style.tocHeading5FontSize style.tocFontSize,
        style.tocHeading5Bold.getD false, style.tocHeading5Italic.getD false)
    | _ => (style.tocFontSize, false, false)
  let fontSize :=
    match triple.1 with
    | some q =>
      if q = 0 then tocFallbackSize style level else q
    | Option.none => tocFallbackSize style level
  (fontSize, triple.2)

/-- index.ts `buildTocContent`: empty heading registry yields no content at
all; otherwise a title paragraph followed by one entry per heading. -/
def buildTocContent (headings : List TocHeadingEntry) (style : Style) :
    List TocParagraph :=
  if headings.isEmpty then []
  else
    TocParagraph.title ::
      headings.map (fun h =>
        let s := tocEntryStyleFor style h.level
        TocParagraph.entry h.text h.bookmarkId s.1 s.2.1 s.2.2
          (((h.level : ℤ) - 1) * 400) (resolveFontFamily style))

/-- A rendered section child as seen by `replaceTocPlaceholders`: a paragraph
flagged `__isTocPlaceholder`, a generated TOC paragraph, or any other
rendered child (opaque). -/
inductive RChild where
  | tocPlaceholder
  | toc (p : TocParagraph)
  | node (k : Nat)
deriving DecidableEq, Repr

/-- index.ts `replaceTocPlaceholders`; the third component counts the
`console.warn` diagnostics emitted for placeholder sightings that insert
nothing. -/
def replaceTocPlaceholders :
    List RChild → List TocParagraph → Bool → List RChild × Bool × Nat
  | [], _, tocInserted => ([], tocInserted, 0)
  | .tocPlaceholder :: rest, tocContent, tocInserted =>
    if tocContent.length > 0 && !tocInserted then
      let r := replaceTocPlaceholders rest tocContent true
      (tocContent.map RChild.toc ++ r.1, r.2.1, r.2.2)
    else
      let r := replaceTocPlaceholders rest tocContent tocInserted
      (r.1, r.2.1, r.2.2 + 1)
  | ch :: rest, tocContent, tocInserted =>
    let r := replaceTocPlaceholders rest tocContent tocInserted
    (ch :: r.1, r.2)

/-- The `docSections` map of index.ts `parseToDocxOptions`, threading the
`tocInserted` flag across sections in order. -/
def assembleTocPassFrom (tocInserted : Bool) (tocContent : List TocParagraph) :
    List (List RChild) → List (List RChild) × Bool × Nat
  | [] => ([], tocInserted, 0)
  | s :: ss =>
    let r := replaceTocPlaceholders s tocContent tocInserted
    let rs := assembleTocPassFrom r.2.1 tocContent ss
    (r.1 :: rs.1, rs.2.1, r.2.2 + rs.2.2)

/-- One TOC-resolution pass over all sections (flag starts `false`). -/
def assembleTocPass (sections : List (List RChild)) (tocContent : List TocParagraph) :
    List (List RChild) × Bool × Nat :=
  assembleTocPassFrom false tocContent sections

/-- Specification-side helper: drop every placeholder, keep everything else. -/
def removeTocPlaceholders : List RChild → List RChild
  | [] => []
  | .tocPlaceholder :: rest => removeTocPlaceholders rest
  | c :: rest => c :: removeTocPlaceholders rest

/-- Number of placeholders in one child list. -/
def countPlaceholders : List RChild → Nat
  | [] => 0
  | .tocPlaceholder :: rest => countPlaceholders rest + 1
  | _ :: rest => countPlaceholders rest

/-- Total number of placeholders across all sections. -/
def countPlaceholdersAll (sections : List (List RChild)) : Nat :=
  (sections.map countPlaceholders).sum

/-- Specification-side helper: replace the first placeholder of one child
list with the given content, dropping all later placeholders; the flag
reports whether a placeholder was found. -/
def spliceFirst : List RChild → List RChild → List RChild × Bool
  | [], _ => ([], false)
  | .tocPlaceholder :: rest, toc => (toc ++ removeTocPlaceholders rest, true)
  | ch :: rest, toc =>
    let r := spliceFirst rest toc
    (ch :: r.1, r.2)

/-- Specification-side helper: replace the globally first placeholder (in
section order) with the given content and drop every other placeholder. -/
def spliceFirstGlobal : List (List RChild) → List RChild → List (List RChild)
  | [], _ => []
  | s :: ss, toc =>
    let r := spliceFirst s toc
    if r.2 then r.1 :: ss.map removeTocPlaceholders
    else r.1 :: spliceFirstGlobal ss toc

/-- types.ts `TableData`. -/
structure TableData where
  headers : List String
  rows : List (List String)
  align : Option (List (Option String)) := none
deriving DecidableEq, Repr

/-- `"document" | "report"`. -/
inductive DocumentTypeOption where
  | document | report
deriving DecidableEq, Repr

/-- Observable parts of a header cell built by tableProcessor.ts. -/
structure HeaderCellOut where
  width : Nat
  text : String
  alignment : AlignmentJS
  shadingFill : String
deriving DecidableEq, Repr

/-- Observable parts of a data cell built by tableProcessor.ts. -/
structure DataCellOut where
  width : Nat
  text : String
  alignment : AlignmentJS
deriving DecidableEq, Repr

/-- Observable parts of the docx `Table` built by tableProcessor.ts
`processTable`. -/
structure ProcessedTable where
  columnWidths : List Nat
  headerCells : List HeaderCellOut
  dataRows : List (List DataCellOut)
  layout : TableLayoutOption
deriving DecidableEq, Repr

/-- `rows.reduce((max, row) => Math.max(max, row.length), 0)`. -/
def maxRowLength (rows : List (List String)) : Nat :=
  rows.foldl (fun m r => max m r.length) 0

/-- tableProcessor.ts `getColumnAlignment`. -/
def getColumnAlignment (td : TableData) (index : Nat) : AlignmentJS :=
  let a := (td.align.getD []).getD index Option.none
  if a = some "center" then .center
  else if a = some "right" then .right
  else .left

/-- tableProcessor.ts `processTable`: column count derived as the maximum of
the header length and all row lengths (at least 1); rows keep their own cell
counts. -/
def processTable (tableData : TableData) (documentType : DocumentTypeOption)
    (style : Option Style) : ProcessedTable :=
  let layout : TableLayoutOption :=
    if (style.bind (·.tableLayout)) = some .fixed then .fixed else .autofit
  let pageWidth : Nat := 9026
  let maxRowLen := maxRowLength tableData.rows
  let columnCount := max (max tableData.headers.length maxRowLen) 1
  let columnWidth := pageWidth / columnCount
  let columnWidths := List.replicate columnCount columnWidth
  { columnWidths := columnWidths
    headerCells := tableData.headers.mapIdx (fun i h =>
      { width := columnWidths.getD i 0
        text := h
        alignment := getColumnAlignment tableData i
        shadingFill := if documentType = .report then "DDDDDD" else "F2F2F2" })
    dataRows := tableData.rows.map (fun row => row.mapIdx (fun i cell =>
      { width := columnWidths.getD i 0
        text := cell
        alignment := getColumnAlignment tableData i }))
    layout := layout }

/-- An enclosing inline markup layer (emphasis, strong, or link). -/
inductive InlineLayer where
  | emph
  | strg
  | lnk (url : String)
deriving DecidableEq, Repr

/-- Wrap an inline fragment in one markup layer. -/
def wrapLayer : InlineLayer → List MdNode → MdNode
  | .emph, ns => .emphasis ns
  | .strg, ns => .strong ns
  | .lnk u, ns => .link u ns

/-- Wrap an inline fragment in a stack of markup layers (head outermost). -/
def wrapLayers : List InlineLayer → List MdNode → List MdNode
  | [], ns => ns
  | L :: Ls, ns => [wrapLayer L (wrapLayers Ls ns)]

/-- The attribute contribution of one enclosing layer to a produced run. -/
def applyLayer : InlineLayer → DocxTextNode → DocxTextNode
  | .emph, r => { r with italic := some true }
  | .strg, r => { r with bold := some true }
  | .lnk u, r => { r with link := some u }

/-- Attribute contribution of a stack of layers (outermost applied last). -/
def applyLayers : List InlineLayer → DocxTextNode → DocxTextNode
  | [], r => r
  | L :: Ls, r => applyLayer L (applyLayers Ls r)

/-- Does the layer stack contain a strong layer? -/
def hasStrongLayer : List InlineLayer → Bool
  | [] => false
  | .strg :: _ => true
  | _ :: Ls => hasStrongLayer Ls

/-- Does the layer stack contain an emphasis layer? -/
def hasEmphLayer : List InlineLayer → Bool
  | [] => false
  | .emph :: _ => true
  | _ :: Ls => hasEmphLayer Ls

/-- The outermost link layer url, if any. -/
def firstLinkLayer : List InlineLayer → Option String
  | [] => Option.none
  | .lnk u :: _ => some u
  | .emph :: Ls => firstLinkLayer Ls
  | .strg :: Ls => firstLinkLayer Ls

/-!
Decidable well-formedness of converted models for the list-item invariant:
every list item anywhere in the model has a non-empty children list. -/
mutual
def blockItemsNonempty : DocxBlock → Bool
  | .list _ items _ => itemsNonempty items
  | .blockquote ch => blocksItemsNonempty ch
  | _ => true
termination_by b => (sizeOf b, 0)

def blocksItemsNonempty : List DocxBlock → Bool
  | [] => true
  | b :: rest => blockItemsNonempty b && blocksItemsNonempty rest
termination_by bs => (sizeOf bs, 0)

def itemsNonempty : List DocxListItem → Bool
  | [] => true
  | .mk ch :: rest => (!ch.isEmpty) && blocksItemsNonempty ch && itemsNonempty rest
termination_by its => (sizeOf its, 0)
end

/-- Erase the deprecated alias field (used to state "behaves identically
except for the alias key itself"). -/
def eraseAliasField (s : Style) : Style :=
  { s with fontFamilly := none }

/-- Per-section local ordered-list maxima `m1..mN`. -/
def localSeqCounts (sections : List (List MdNode)) : List Nat :=
  sections.map mdastLocalSeqCount

/-- Specification-side description of section 4.3 of the spec: section `i`
receives the dense id range starting right after the running total of all
previous sections' local maxima. -/
def specSeqRangesFrom (offset : Nat) : List (List MdNode) → List (List Nat)
  | [] => []
  | s :: ss =>
    List.range' (offset + 1) (mdastLocalSeqCount s) ::
      specSeqRangesFrom (offset + mdastLocalSeqCount s) ss

/-- Spec-side id ranges for a whole pass. -/
def specSeqRanges (sections : List (List MdNode)) : List (List Nat) :=
  specSeqRangesFrom 0 sections

/-!
# Theorems
-/

/-- C1: resolving a header/footer slot obeys the three-valued semantics: an
explicit `null` section slot makes the resolved slot `null` (suppressing the
inherited template slot entirely, and producing no header/footer downstream);
an `undefined` section slot inherits the template slot unchanged; an object
section slot is shallow-merged over an inherited object, per key. The group
conjunct shows a `null` default slot suppressing any template group. -/
theorem c1_header_footer_slot_three_valued_semantics :
    (∀ t, mergeHeaderFooterSlot t .null = .null) ∧
    (∀ t, mergeHeaderFooterSlot t .undefined = t) ∧
    (∀ tc sc, mergeHeaderFooterSlot (.obj tc) (.obj sc) =
      .obj { text := ovr tc.text sc.text
             alignment := ovr tc.alignment sc.alignment
             pageNumberDisplay := ovr tc.pageNumberDisplay sc.pageNumberDisplay }) ∧
    (∀ tg : HeaderFooterGroup,
      mergeHeaderFooterGroup (some tg) (some ⟨.null, .undefined, .undefined⟩) =
        some ⟨.null, tg.first, tg.even⟩) ∧
    (∀ st d a, createFooterFromSlot .null st d a = Option.none) ∧
    (∀ st, createHeaderFromSlot .null st = Option.none) := by
  refine ⟨fun t => rfl, fun t => rfl, fun tc sc => rfl, fun tg => ?_,
    fun st d a => rfl, fun st => rfl⟩
  simp [mergeHeaderFooterGroup, slotOf, mergeHeaderFooterSlot]

/-- C6: the resolved column count of a processed table is the maximum of the
header-row length and all data-row lengths, with a minimum of 1; data rows
keep their own cell counts (they are not padded or truncated to the header
length); the header row keeps its own cell count; and the concrete
3-column-header, 2-cell-row table resolves to 3 columns. -/
theorem c6_table_column_count_max_of_headers_and_rows :
    (∀ td dt st, (processTable td dt st).columnWidths.length =
      max (max td.headers.length (maxRowLength td.rows)) 1) ∧
    (∀ td dt st,
      (processTable td dt st).dataRows.map List.length = td.rows.map List.length) ∧
    (∀ td dt st, (processTable td dt st).headerCells.length = td.headers.length) ∧
    ((processTable ⟨["h1", "h2", "h3"], [["a", "b"]], Option.none⟩
      .document Option.none).columnWidths.length = 3) := by
  refine ⟨fun td dt st => ?_, fun td dt st => ?_, fun td dt st => ?_, by decide⟩
  · simp [processTable]
  · simp [processTable, Function.comp]
  · simp [processTable]

/-- C10: a section whose resolved configuration has no footers group gets an
automatically generated default footer rendering the page-number fields for
the resolved display mode (which defaults to `current`) at the resolved
alignment (which defaults to `CENTER`); if the resolved display mode is
`none`, no footer is emitted at all. -/
theorem c10_auto_footer_when_no_footers_group (cfg : SectionConfig) (st : Style)
    (hf : cfg.footers = Option.none) :
    ((cfg.pageNumbering.bind (·.display)).getD .current = .none →
      buildFooters cfg st = Option.none) ∧
    ((cfg.pageNumbering.bind (·.display)).getD .current ≠ .none →
      buildFooters cfg st = some
        { default := some ⟨[{
            alignment :=
              alignmentTypeOf ((cfg.pageNumbering.bind (·.alignment)).getD .CENTER)
            bidirectional := st.direction == some .RTL
            run := {
              children :=
                buildPageNumberChildren ((cfg.pageNumbering.bind (·.display)).getD .current)
              size := jsOrRat st.paragraphSize 24
              font := resolveFontFamily st
              rightToLeft := st.direction == some .RTL } }]⟩
          first := Option.none
          even := Option.none }) := by
  constructor
  · intro h0
    simp [buildFooters, hf, h0]
  · intro hne
    rcases hd : (cfg.pageNumbering.bind (·.display)).getD .current with _ | _ | _ | _
    · exact absurd hd hne
    all_goals
      simp [buildFooters, hf, hd, createFooterFromSlot, createHeaderFooterParagraph,
        resolveAlignment, buildPageNumberChildren]

/-- Witness for C10 at concrete inputs: the empty configuration (display
defaults to `current`) yields the centered page-number footer, and an
explicit `display: "none"` yields no footer. -/
theorem c10_auto_footer_when_no_footers_group_witness :
    buildFooters emptySectionConfig emptyStyle = some
      { default := some ⟨[{
          alignment := .center
          bidirectional := false
          run := { children := [.pageCurrent], size := 24, font := Option.none,
                   rightToLeft := false } }]⟩
        first := Option.none
        even := Option.none } ∧
    buildFooters { pageNumbering := some { display := some .none } } emptyStyle =
      Option.none := by
  constructor
  · exact (c10_auto_footer_when_no_footers_group emptySectionConfig emptyStyle rfl).2
      (by decide)
  · exact (c10_auto_footer_when_no_footers_group
      { pageNumbering := some { display := some .none } } emptyStyle rfl).1 rfl

/-- C5 counterexample: with the alias value `""` (a well-typed string), the
alias is NOT resolved to the canonical field at normalization (JS `||`
treats `""` as falsy), and a style supplying only `fontFamilly: ""` does not
behave identically to one supplying `fontFamily: ""`: merged over a template
whose canonical font is `"T"`, the former resolves the font to `"T"` while
the latter resolves it to nothing. -/
theorem c5_alias_normalization_counterexample :
    ((normalizeStyleInput (some { fontFamilly := some "" })).map (·.fontFamily) =
      some Option.none) ∧
    resolveFontFamily (mergeStyles { fontFamily := some "T" }
      ((normalizeStyleInput (some { fontFamilly := some "" })).getD emptyStyle)) =
      some "T" ∧
    resolveFontFamily (mergeStyles { fontFamily := some "T" }
      ((normalizeStyleInput (some { fontFamily := some "" })).getD emptyStyle)) =
      Option.none := by
  decide

/-- C5 (amended): for every style input whose only font field is the
deprecated alias `fontFamilly` with a NON-EMPTY (truthy) value, the alias is
copied onto the canonical `fontFamily` field by `normalizeStyleInput` before
any merging, and such a style behaves identically to one supplying the same
value as `fontFamily`: after merging over any template the two resolved
styles agree on every field other than the alias key itself and resolve the
same font. -/
theorem c5_alias_resolved_for_truthy_values (s : Style) (v : String)
    (hv : v ≠ "") (hcanon : s.fontFamily = Option.none)
    (halias : s.fontFamilly = some v) :
    normalizeStyleInput (some s) = some { s with fontFamily := some v } ∧
    (∀ tpl : Style,
      eraseAliasField (mergeStyles tpl { s with fontFamily := some v }) =
        eraseAliasField (mergeStyles tpl
          { s with fontFamilly := Option.none, fontFamily := some v }) ∧
      resolveFontFamily (mergeStyles tpl { s with fontFamily := some v }) = some v ∧
      resolveFontFamily (mergeStyles tpl
        { s with fontFamilly := Option.none, fontFamily := some v }) = some v) := by
  refine ⟨?_, fun tpl => ⟨rfl, ?_, ?_⟩⟩
  · simp [normalizeStyleInput, jsOrStr, jsTruthyStr, hcanon, halias, hv]
  · simp [resolveFontFamily, mergeStyles, ovr, jsOrStr, jsTruthyStr, hv]
  · simp [resolveFontFamily, mergeStyles, ovr, jsOrStr, jsTruthyStr, hv]

/-- Witness for the amended C5 at a concrete input (`fontFamilly: "Arial"`). -/
theorem c5_alias_resolved_for_truthy_values_witness :
    normalizeStyleInput (some ({ fontFamilly := some "Arial" } : Style)) =
      some { fontFamilly := some "Arial", fontFamily := some "Arial" } ∧
    resolveFontFamily (mergeStyles { fontFamily := some "T" }
      { fontFamilly := some "Arial", fontFamily := some "Arial" }) = some "Arial" := by
  have h := c5_alias_resolved_for_truthy_values { fontFamilly := some "Arial" } "Arial"
    (by decide) rfl rfl
  exact ⟨h.1, (h.2 { fontFamily := some "T" }).2.1⟩

/-- C4: the nested style, page-margin, page-size and page-numbering objects of
a resolved section configuration are shallow-merged per key: a section that
overrides exactly one field of each nested object retains every sibling field
that the template set in that object. -/
theorem c4_nested_objects_shallow_merged (tst : Style) (tm : SectionPageMargins)
    (tsz : SectionPageSize) (tpn : SectionPageNumbering) (x y z w : ℚ) :
    mergeSectionConfig
      (some { style := some tst
              page := some { margin := some tm, size := some tsz }
              pageNumbering := some tpn })
      (some { style := some { titleSize := some x }
              page := some { margin := some { top := some y }
                             size := some { width := some z } }
              pageNumbering := some { start := some w } }) =
    { style := some
        { titleSize := some x
          headingSpacing := tst.headingSpacing
          paragraphSpacing := tst.paragraphSpacing
          lineSpacing := tst.lineSpacing
          fontFamily := tst.fontFamily
          fontFamilly := tst.fontFamilly
          direction := tst.direction
          heading1Size := tst.heading1Size
          heading2Size := tst.heading2Size
          heading3Size := tst.heading3Size
          heading4Size := tst.heading4Size
          heading5Size := tst.heading5Size
          paragraphSize := tst.paragraphSize
          listItemSize := tst.listItemSize
          codeBlockSize := tst.codeBlockSize
          blockquoteSize := tst.blockquoteSize
          tocFontSize := tst.tocFontSize
          tocHeading1FontSize := tst.tocHeading1FontSize
          tocHeading2FontSize := tst.tocHeading2FontSize
          tocHeading3FontSize := tst.tocHeading3FontSize
          tocHeading4FontSize := tst.tocHeading4FontSize
          tocHeading5FontSize := tst.tocHeading5FontSize
          tocHeading1Bold := tst.tocHeading1Bold
          tocHeading2Bold := tst.tocHeading2Bold
          tocHeading3Bold := tst.tocHeading3Bold
          tocHeading4Bold := tst.tocHeading4Bold
          tocHeading5Bold := tst.tocHeading5Bold
          tocHeading1Italic := tst.tocHeading1Italic
          tocHeading2Italic := tst.tocHeading2Italic
          tocHeading3Italic := tst.tocHeading3Italic
          tocHeading4Italic := tst.tocHeading4Italic
          tocHeading5Italic := tst.tocHeading5Italic
          paragraphAlignment := tst.paragraphAlignment
          headingAlignment := tst.headingAlignment
          heading1Alignment := tst.heading1Alignment
          heading2Alignment := tst.heading2Alignment
          heading3Alignment := tst.heading3Alignment
          heading4Alignment := tst.heading4Alignment
          heading5Alignment := tst.heading5Alignment
          blockquoteAlignment := tst.blockquoteAlignment
          tableLayout := tst.tableLayout }
      page := some
        { margin := some
            { top := some y
              right := tm.right
              bottom := tm.bottom
              left := tm.left
              header := tm.header
              footer := tm.footer
              gutter := tm.gutter }
          size := some
            { width := some z
              height := tsz.height
              orientation := tsz.orientation } }
      headers := Option.none
      footers := Option.none
      pageNumbering := some
        { start := some w
          formatType := tpn.formatType
          separator := tpn.separator
          display := tpn.display
          alignment := tpn.alignment }
      titlePage := Option.none
      type := Option.none } := by
  rfl

/-- C7: text runs produced from an inline fragment wrapped in any stack of
emphasis/strong/link layers carry the union of the enclosing layers'
attributes: wrapping maps the per-layer attribute update over the unwrapped
runs; the resulting `bold` flag is set iff some enclosing layer is strong (or
the run already had it), likewise `italic` for emphasis; a link layer adds
its url (outermost link wins); run text is never changed by layers. In
particular a run inside strong-inside-emphasis carries both flags, and a run
inside a link carries the url in addition to inherited flags. -/
theorem c7_inline_attributes_union :
    (∀ (Ls : List InlineLayer) (ns : List MdNode),
      processInlineNodes (wrapLayers Ls ns) =
        (processInlineNodes ns).map (fun r => applyLayers Ls r)) ∧
    (∀ Ls r, (applyLayers Ls r).bold =
      if hasStrongLayer Ls then some true else r.bold) ∧
    (∀ Ls r, (applyLayers Ls r).italic =
      if hasEmphLayer Ls then some true else r.italic) ∧
    (∀ Ls r, (applyLayers Ls r).link =
      match firstLinkLayer Ls with
      | some u => some u
      | Option.none => r.link) ∧
    (∀ Ls r, (applyLayers Ls r).value = r.value) ∧
    (processInlineNodes [.emphasis [.strong [.text "v"]]] =
      [{ value := "v", bold := some true, italic := some true }]) ∧
    (processInlineNodes [.link "u" [.strong [.text "v"]]] =
      [{ value := "v", bold := some true, link := some "u" }]) := by
  refine ⟨?_, ?_, ?_, ?_, ?_, by decide, by decide⟩
  · intro Ls
    induction Ls with
    | nil => intro ns; simp [wrapLayers, applyLayers]
    | cons L Ls ih =>
      intro ns
      cases L <;>
        simp [wrapLayers, wrapLayer, processInlineNodes, processInlineNode,
          applyLayers, applyLayer, ih, List.map_map, Function.comp]
  · intro Ls
    induction Ls with
    | nil => intro r; simp [applyLayers, hasStrongLayer]
    | cons L Ls ih =>
      intro r
      cases L <;> simp [applyLayers, applyLayer, hasStrongLayer, ih]
  · intro Ls
    induction Ls with
    | nil => intro r; simp [applyLayers, hasEmphLayer]
    | cons L Ls ih =>
      intro r
      cases L <;> simp [applyLayers, applyLayer, hasEmphLayer, ih]
  · intro Ls
    induction Ls with
    | nil => intro r; simp [applyLayers, firstLinkLayer]
    | cons L Ls ih =>
      intro r
      cases L <;> simp [applyLayers, applyLayer, firstLinkLayer, ih]
  · intro Ls
    induction Ls with
    | nil => intro r; simp [applyLayers]
    | cons L Ls ih =>
      intro r
      cases L <;> simp [applyLayers, applyLayer, ih]

/-- Helper: the list-item invariant distributes over appended block lists. -/
theorem blocksItemsNonempty_append (as bs : List DocxBlock) :
    blocksItemsNonempty (as ++ bs) =
      (blocksItemsNonempty as && blocksItemsNonempty bs) := by
  induction as with
  | nil => simp [blocksItemsNonempty]
  | cons a t ih => simp [blocksItemsNonempty, ih, Bool.and_assoc]

/-- Helper: every block produced by the nested-html special case satisfies
the list-item invariant (only comments and page breaks are produced). -/
theorem processHtmlNested_itemsOk (v : String) :
    ∀ b, processHtmlNested v = some b → blockItemsNonempty b = true := by
  intro b hb
  unfold processHtmlNested at hb
  split at hb
  · exact absurd hb (by simp)
  · split at hb
    · split at hb
      · cases hb; simp [blockItemsNonempty]
      · split at hb
        · cases hb; simp [blockItemsNonempty]
        · exact absurd hb (by simp)
    · split at hb
      · cases hb; simp [blockItemsNonempty]
      · exact absurd hb (by simp)

/-- Helper: blocks produced by the top-level special cases satisfy the
list-item invariant. -/
theorem rootSpecialCase_itemsOk (n : MdNode) :
    ∀ ob b, rootSpecialCase n = some ob → ob = some b →
      blockItemsNonempty b = true := by
  intro ob b hob hb
  subst hb
  unfold rootSpecialCase at hob
  split at hob
  · simp only [] at hob
    split at hob
    · cases hob; simp [blockItemsNonempty]
    · split at hob
      · cases hob; simp [blockItemsNonempty]
      · cases hob
  · split at hob
    · split at hob
      · cases hob; simp [blockItemsNonempty]
      · split at hob
        · cases hob; simp [blockItemsNonempty]
        · cases hob
    · split at hob
      · cases hob; simp [blockItemsNonempty]
      · cases hob
  · cases hob

mutual

theorem processNode_itemsOk (c : Nat) (n : MdNode) :
    ∀ b, (processNode c n).2 = some b → blockItemsNonempty b = true := by
  intro b hb
  cases n with
  | heading depth ch =>
    simp [processNode] at hb; subst hb; simp [blockItemsNonempty]
  | paragraph ch =>
    simp [processNode] at hb; subst hb
    unfold processParagraphNode
    split <;> simp [blockItemsNonempty]
  | list o items =>
    simp [processNode] at hb; subst hb
    exact processListNode_itemsOk c o items
  | code lang v =>
    simp [processNode] at hb; subst hb; simp [blockItemsNonempty]
  | blockquote ch =>
    simp [processNode] at hb; subst hb
    simp [blockItemsNonempty]
    exact processBlocks_itemsOk c ch
  | image alt url =>
    simp [processNode] at hb; subst hb; simp [blockItemsNonempty]
  | table rows =>
    simp [processNode] at hb; subst hb
    unfold processTableNode
    split <;> simp [blockItemsNonempty]
  | html v =>
    simp [processNode] at hb
    exact processHtmlNested_itemsOk v b hb
  | text v => simp [processNode] at hb
  | emphasis ch => simp [processNode] at hb
  | strong ch => simp [processNode] at hb
  | inlineCode v => simp [processNode] at hb
  | link u ch => simp [processNode] at hb
  | br => simp [processNode] at hb
  | thematicBreak => simp [processNode] at hb
  | other v => simp [processNode] at hb
termination_by (sizeOf n, 0)

theorem processNodeOpt_itemsOk (c : Nat) (n : MdNode) :
    blocksItemsNonempty (processNode c n).2.toList = true := by
  rcases h : (processNode c n).2 with _ | b
  · simp [blocksItemsNonempty]
  · simp [blocksItemsNonempty, processNode_itemsOk c n b h]
termination_by (sizeOf n, 1)

theorem processBlocks_itemsOk (c : Nat) (ns : List MdNode) :
    blocksItemsNonempty (processBlocks c ns).2 = true := by
  cases ns with
  | nil => simp [processBlocks, blocksItemsNonempty]
  | cons n rest =>
    have h1 := processNodeOpt_itemsOk c n
    have h2 := processBlocks_itemsOk (processNode c n).1 rest
    simp [processBlocks, blocksItemsNonempty_append, h1, h2]
termination_by (sizeOf ns, 0)

theorem processListNode_itemsOk (c : Nat) (ordered : Bool) (items : List MdListItem) :
    blockItemsNonempty (processListNode c ordered items).2 = true := by
  simp [processListNode, blockItemsNonempty]
  exact processItems_itemsOk (if ordered then c + 1 else c) items
termination_by (sizeOf items, 1)

theorem processItems_itemsOk (c : Nat) (items : List MdListItem) :
    itemsNonempty (processItems c items).2 = true := by
  cases items with
  | nil => simp [processItems, itemsNonempty]
  | cons it rest =>
    cases it with
    | mk ch =>
      have h1 := processItemChildren_itemsOk c ch
      have h2 := processItems_itemsOk (processItemChildren c ch).1 rest
      simp only [processItems]
      split
      · simp [itemsNonempty, blocksItemsNonempty, blockItemsNonempty, h2]
      · next hE => simp [itemsNonempty, h1, h2, hE]
termination_by (sizeOf items, 0)

theorem processItemChildren_itemsOk (c : Nat) (ns : List MdNode) :
    blocksItemsNonempty (processItemChildren c ns).2 = true := by
  cases ns with
  | nil => simp [processItemChildren, blocksItemsNonempty]
  | cons n rest =>
    cases n with
    | list o items =>
      have h1 := processListNode_itemsOk c o items
      have h2 := processItemChildren_itemsOk (processListNode c o items).1 rest
      simp [processItemChildren, blocksItemsNonempty, h1, h2]
    | paragraph ch =>
      have h2 := processItemChildren_itemsOk c rest
      simp [processItemChildren, blocksItemsNonempty, blockItemsNonempty, h2]
    | heading depth ch =>
      have h1 := processNodeOpt_itemsOk c (.heading depth ch)
      have h2 := processItemChildren_itemsOk (processNode c (.heading depth ch)).1 rest
      simp [processItemChildren, blocksItemsNonempty_append, h1, h2]
    | code lang v =>
      have h1 := processNodeOpt_itemsOk c (.code lang v)
      have h2 := processItemChildren_itemsOk (processNode c (.code lang v)).1 rest
      simp [processItemChildren, blocksItemsNonempty_append, h1, h2]
    | blockquote ch =>
      have h1 := processNodeOpt_itemsOk c (.blockquote ch)
      have h2 := processItemChildren_itemsOk (processNode c (.blockquote ch)).1 rest
      simp [processItemChildren, blocksItemsNonempty_append, h1, h2]
    | image alt url =>
      have h1 := processNodeOpt_itemsOk c (.image alt url)
      have h2 := processItemChildren_itemsOk (processNode c (.image alt url)).1 rest
      simp [processItemChildren, blocksItemsNonempty_append, h1, h2]
    | table rows =>
      have h1 := processNodeOpt_itemsOk c (.table rows)
      have h2 := processItemChildren_itemsOk (processNode c (.table rows)).1 rest
      simp [processItemChildren, blocksItemsNonempty_append, h1, h2]
    | text v =>
      have h1 := processNodeOpt_itemsOk c (.text v)
      have h2 := processItemChildren_itemsOk (processNode c (.text v)).1 rest
      simp [processItemChildren, blocksItemsNonempty_append, h1, h2]
    | emphasis ch =>
      have h1 := processNodeOpt_itemsOk c (.emphasis ch)
      have h2 := processItemChildren_itemsOk (processNode c (.emphasis ch)).1 rest
      simp [processItemChildren, blocksItemsNonempty_append, h1, h2]
    | strong ch =>
      have h1 := processNodeOpt_itemsOk c (.strong ch)
      have h2 := processItemChildren_itemsOk (processNode c (.strong ch)).1 rest
      simp [processItemChildren, blocksItemsNonempty_append, h1, h2]
    | inlineCode v =>
      have h1 := processNodeOpt_itemsOk c (.inlineCode v)
      have h2 := processItemChildren_itemsOk (processNode c (.inlineCode v)).1 rest
      simp [processItemChildren, blocksItemsNonempty_append, h1, h2]
    | link u ch =>
      have h1 := processNodeOpt_itemsOk c (.link u ch)
      have h2 := processItemChildren_itemsOk (processNode c (.link u ch)).1 rest
      simp [processItemChildren, blocksItemsNonempty_append, h1, h2]
    | br =>
      have h1 := processNodeOpt_itemsOk c .br
      have h2 := processItemChildren_itemsOk (processNode c .br).1 rest
      simp [processItemChildren, blocksItemsNonempty_append, h1, h2]
    | html v =>
      have h1 := processNodeOpt_itemsOk c (.html v)
      have h2 := processItemChildren_itemsOk (processNode c (.html v)).1 rest
      simp [processItemChildren, blocksItemsNonempty_append, h1, h2]
    | thematicBreak =>
      have h1 := processNodeOpt_itemsOk c .thematicBreak
      have h2 := processItemChildren_itemsOk (processNode c .thematicBreak).1 rest
      simp [processItemChildren, blocksItemsNonempty_append, h1, h2]
    | other v =>
      have h1 := processNodeOpt_itemsOk c (.other v)
      have h2 := processItemChildren_itemsOk (processNode c (.other v)).1 rest
      simp [processItemChildren, blocksItemsNonempty_append, h1, h2]
termination_by (sizeOf ns, 0)

end

/-- Helper: the list-item invariant holds for the whole top-level walk. -/
theorem processRoot_itemsOk (c : Nat) (ns : List MdNode) :
    blocksItemsNonempty (processRoot c ns).2 = true := by
  induction ns generalizing c with
  | nil => simp [processRoot, blocksItemsNonempty]
  | cons n rest ih =>
    rcases h : rootSpecialCase n with _ | ob
    · have h1 := processNodeOpt_itemsOk c n
      have h2 := ih (processNode c n).1
      simp [processRoot, h, blocksItemsNonempty_append, h1, h2]
    · rcases ob with _ | b
      · simp [processRoot, h, blocksItemsNonempty_append, ih c]
      · have hb := rootSpecialCase_itemsOk n (some b) b h rfl
        simp [processRoot, h, blocksItemsNonempty_append, hb, ih c,
          blocksItemsNonempty]

/-- C8: no list item in any converted model is childless: every list item
node produced by the converter has a non-empty children list, and a source
list item whose children produce no blocks is normalized to contain exactly
one empty paragraph. -/
theorem c8_list_items_never_childless :
    (∀ root, blocksItemsNonempty (mdastToDocxModel root).children = true) ∧
    (∀ c ns, (processItemChildren c ns).2 = [] →
      (processItems c [.mk ns]).2 = [.mk [.paragraph []]]) := by
  constructor
  · intro root
    simp only [mdastToDocxModel]
    exact processRoot_itemsOk 0 root
  · intro c ns h
    simp [processItems, h]

/-- Witness for C8 at the concrete childless source item. -/
theorem c8_list_items_never_childless_witness :
    (processItems 0 [.mk []]).2 = [.mk [.paragraph []]] :=
  c8_list_items_never_childless.2 0 [] (by simp [processItemChildren])

/-- C9: the converter is total over syntax trees by construction (every
function of this embedding is a total Lean function), and unrecognized or
malformed input degrades instead of erroring: thematic breaks, unknown node
kinds and unrecognized raw html produce no output node at the block level
(at the top level unrecognized html children are skipped), and unknown
inline nodes flatten to their text value when they have one (and are dropped
otherwise, as is a falsy empty value). -/
theorem c9_converter_total_and_degrades :
    (∀ c, processNode c .thematicBreak = (c, Option.none)) ∧
    (∀ c v, processNode c (.other v) = (c, Option.none)) ∧
    (∀ c v, processNode c (.text v) = (c, Option.none)) ∧
    (∀ c v, jsTrim v ≠ "<!--COMMENT:" → strContains v "COMMENT:" = false →
      strContains v "\\pagebreak" = false → strContains v "pagebreak" = false →
      processNode c (.html v) = (c, Option.none)) ∧
    (∀ c v rest, strContains v "COMMENT:" = false →
      strContains v "pagebreak" = false → strContains v "\\pagebreak" = false →
      processRoot c (.html v :: rest) = processRoot c rest) ∧
    (∀ v, v ≠ "" → processInlineNode (.other (some v)) = [{ value := v }]) ∧
    (processInlineNode (.other Option.none) = []) := by
  refine ⟨fun c => by simp [processNode], fun c v => by simp [processNode],
    fun c v => by simp [processNode], ?_, ?_, ?_, by simp [processInlineNode]⟩
  · intro c v h1 h2 h3 h4
    simp [processNode, processHtmlNested, h1, h2, h3, h4]
  · intro c v rest h2 h3 h4
    simp [processRoot, rootSpecialCase, h2, h3, h4]
  · intro v hv
    simp [processInlineNode, hv]

/-- Witness for C9 at concrete unrecognized inputs. -/
theorem c9_converter_total_and_degrades_witness :
    processNode 0 (.html "<div>") = (0, Option.none) ∧
    processRoot 0 [.html "<div>"] = (0, []) ∧
    processInlineNode (.other (some "x")) = [{ value := "x" }] := by
  refine ⟨?_, ?_, ?_⟩
  · exact c9_converter_total_and_degrades.2.2.2.1 0 "<div>" (by decide) (by decide)
      (by decide) (by decide)
  · exact (c9_converter_total_and_degrades.2.2.2.2.1 0 "<div>" [] (by decide)
      (by decide) (by decide)).trans rfl
  · exact c9_converter_total_and_degrades.2.2.2.2.2.1 "x" (by decide)

/-- Helper: sequence-id collection distributes over appended block lists. -/
theorem blocksSeqIds_append (as bs : List DocxBlock) :
    blocksSeqIds (as ++ bs) = blocksSeqIds as ++ blocksSeqIds bs := by
  induction as with
  | nil => simp [blocksSeqIds]
  | cons a t ih => simp [blocksSeqIds, ih]

/-- Helper: two adjacent dense ranges glue into one dense range. -/
theorem range'_glue (a b k : Nat) (h1 : a ≤ b) (h2 : b ≤ k) :
    List.range' (a + 1) (b - a) ++ List.range' (b + 1) (k - b) =
      List.range' (a + 1) (k - a) := by
  have h := List.range'_append (a + 1) (b - a) (k - b) 1
  rw [show (a + 1) + 1 * (b - a) = b + 1 by omega] at h
  rw [h, show (k - b) + (b - a) = k - a by omega]

/-- Helper: the maximum of a non-empty dense range is its last element. -/
theorem foldr_max_range' (n : Nat) : ∀ s, (List.range' s (n + 1)).foldr max 0 = s + n := by
  induction n with
  | zero => intro s; simp [List.range'_succ]
  | succ n ih =>
    intro s
    rw [List.range'_succ]
    simp only [List.foldr_cons, ih (s + 1)]
    omega

/-- Helper: the running maximum reported for a section with `m` local ids. -/
theorem foldr_max_range'_one (m : Nat) : (List.range' 1 m).foldr max 0 = m := by
  cases m with
  | zero => simp
  | succ n => rw [foldr_max_range' n 1]; omega

/-- Helper: paragraphs (including promoted images) carry no sequence ids. -/
theorem processParagraphNode_noIds (ch : List MdNode) :
    blockSeqIds (processParagraphNode ch) = [] := by
  unfold processParagraphNode
  split <;> simp [blockSeqIds]

/-- Helper: tables carry no sequence ids. -/
theorem processTableNode_noIds (rows : List MdTableRow) :
    blockSeqIds (processTableNode rows) = [] := by
  unfold processTableNode
  split <;> simp [blockSeqIds]

/-- Helper: blocks produced from nested html carry no sequence ids. -/
theorem processHtmlNested_noIds (v : String) :
    ∀ b, processHtmlNested v = some b → blockSeqIds b = [] := by
  intro b hb
  unfold processHtmlNested at hb
  split at hb
  · exact absurd hb (by simp)
  · split at hb
    · split at hb
      · cases hb; simp [blockSeqIds]
      · split at hb
        · cases hb; simp [blockSeqIds]
        · exact absurd hb (by simp)
    · split at hb
      · cases hb; simp [blockSeqIds]
      · exact absurd hb (by simp)

/-- Helper: blocks produced by the top-level special cases carry no ids. -/
theorem rootSpecialCase_noIds (n : MdNode) :
    ∀ ob b, rootSpecialCase n = some ob → ob = some b → blockSeqIds b = [] := by
  intro ob b hob hb
  subst hb
  unfold rootSpecialCase at hob
  split at hob
  · simp only [] at hob
    split at hob
    · cases hob; simp [blockSeqIds]
    · split at hob
      · cases hob; simp [blockSeqIds]
      · cases hob
  · split at hob
    · split at hob
      · cases hob; simp [blockSeqIds]
      · split at hob
        · cases hob; simp [blockSeqIds]
        · cases hob
    · split at hob
      · cases hob; simp [blockSeqIds]
      · cases hob
  · cases hob

mutual

theorem processNode_seqIds (c : Nat) (n : MdNode) :
    c ≤ (processNode c n).1 ∧
    blocksSeqIds (processNode c n).2.toList =
      List.range' (c + 1) ((processNode c n).1 - c) := by
  cases n with
  | heading depth ch => simp [processNode, blocksSeqIds, blockSeqIds]
  | paragraph ch => simp [processNode, blocksSeqIds, processParagraphNode_noIds]
  | list o items =>
    have h := processListNode_seqIds c o items
    refine ⟨?_, ?_⟩
    · simp only [processNode]
      exact h.1
    · simp only [processNode]
      simp [blocksSeqIds]
      exact h.2
  | code lang v => simp [processNode, blocksSeqIds, blockSeqIds]
  | blockquote ch =>
    have h := processBlocks_seqIds c ch
    refine ⟨?_, ?_⟩
    · simp only [processNode]
      exact h.1
    · simp only [processNode]
      simp [blocksSeqIds, blockSeqIds]
      exact h.2
  | image alt url => simp [processNode, blocksSeqIds, blockSeqIds]
  | table rows => simp [processNode, blocksSeqIds, processTableNode_noIds]
  | html v =>
    rcases hv : processHtmlNested v with _ | b
    · simp [processNode, hv, blocksSeqIds]
    · have hb := processHtmlNested_noIds v b hv
      simp [processNode, hv, blocksSeqIds, hb]
  | text v => simp [processNode, blocksSeqIds]
  | emphasis ch => simp [processNode, blocksSeqIds]
  | strong ch => simp [processNode, blocksSeqIds]
  | inlineCode v => simp [processNode, blocksSeqIds]
  | link u ch => simp [processNode, blocksSeqIds]
  | br => simp [processNode, blocksSeqIds]
  | thematicBreak => simp [processNode, blocksSeqIds]
  | other v => simp [processNode, blocksSeqIds]
termination_by (sizeOf n, 0)

theorem processBlocks_seqIds (c : Nat) (ns : List MdNode) :
    c ≤ (processBlocks c ns).1 ∧
    blocksSeqIds (processBlocks c ns).2 =
      List.range' (c + 1) ((processBlocks c ns).1 - c) := by
  cases ns with
  | nil => simp [processBlocks, blocksSeqIds]
  | cons n rest =>
    have h1 := processNode_seqIds c n
    have h2 := processBlocks_seqIds (processNode c n).1 rest
    refine ⟨?_, ?_⟩
    · simp only [processBlocks]
      have hb1 := h1.1
      have hb2 := h2.1
      omega
    · simp only [processBlocks]
      rw [blocksSeqIds_append, h1.2, h2.2]
      exact range'_glue _ _ _ h1.1 h2.1
termination_by (sizeOf ns, 0)

theorem processListNode_seqIds (c : Nat) (ordered : Bool) (items : List MdListItem) :
    c ≤ (processListNode c ordered items).1 ∧
    blockSeqIds (processListNode c ordered items).2 =
      List.range' (c + 1) ((processListNode c ordered items).1 - c) := by
  cases ordered with
  | false =>
    have h := processItems_seqIds c items
    refine ⟨?_, ?_⟩
    · simp only [processListNode]
      simpa using h.1
    · simp only [processListNode]
      simp [blockSeqIds]
      exact h.2
  | true =>
    have h := processItems_seqIds (c + 1) items
    have h1 := h.1
    refine ⟨?_, ?_⟩
    · simp only [processListNode]
      simp only [if_true]
      omega
    · simp only [processListNode]
      simp only [if_true]
      simp [blockSeqIds, h.2]
      rw [show (processItems (c + 1) items).1 - c =
          ((processItems (c + 1) items).1 - (c + 1)) + 1 from by omega,
        List.range'_succ]
termination_by (sizeOf items, 1)

theorem processItems_seqIds (c : Nat) (items : List MdListItem) :
    c ≤ (processItems c items).1 ∧
    itemsSeqIds (processItems c items).2 =
      List.range' (c + 1) ((processItems c items).1 - c) := by
  cases items with
  | nil => simp [processItems, itemsSeqIds]
  | cons it rest =>
    cases it with
    | mk ch =>
      have h1 := processItemChildren_seqIds c ch
      have h2 := processItems_seqIds (processItemChildren c ch).1 rest
      refine ⟨?_, ?_⟩
      · simp only [processItems]
        have hb1 := h1.1
        have hb2 := h2.1
        omega
      · simp only [processItems]
        split
        · next hE =>
          have hnil : (processItemChildren c ch).2 = [] := by
            simpa [List.isEmpty_iff] using hE
          have hc : (processItemChildren c ch).1 = c := by
            have hx := h1.2
            have hb := h1.1
            rw [hnil] at hx
            simp [blocksSeqIds] at hx
            omega
          simp [itemsSeqIds, blocksSeqIds, blockSeqIds]
          rw [hc] at h2 ⊢
          exact h2.2
        · next hE =>
          simp only [itemsSeqIds]
          rw [h1.2, h2.2]
          exact range'_glue _ _ _ h1.1 h2.1
termination_by (sizeOf items, 0)

theorem processItemChildren_seqIds (c : Nat) (ns : List MdNode) :
    c ≤ (processItemChildren c ns).1 ∧
    blocksSeqIds (processItemChildren c ns).2 =
      List.range' (c + 1) ((processItemChildren c ns).1 - c) := by
  cases ns with
  | nil => simp [processItemChildren, blocksSeqIds]
  | cons n rest =>
    cases n with
    | list o items =>
      have h1 := processListNode_seqIds c o items
      have h2 := processItemChildren_seqIds (processListNode c o items).1 rest
      refine ⟨?_, ?_⟩
      · simp only [processItemChildren]
        have hb1 := h1.1
        have hb2 := h2.1
        omega
      · simp only [processItemChildren]
        simp only [blocksSeqIds]
        rw [h1.2, h2.2]
        exact range'_glue _ _ _ h1.1 h2.1
    | paragraph ch =>
      have h2 := processItemChildren_seqIds c rest
      refine ⟨?_, ?_⟩
      · simp only [processItemChildren]
        exact h2.1
      · simp only [processItemChildren]
        simp only [blocksSeqIds, blockSeqIds]
        simpa using h2.2
    | heading depth ch =>
      have h1 := processNode_seqIds c (.heading depth ch)
      have h2 := processItemChildren_seqIds (processNode c (.heading depth ch)).1 rest
      refine ⟨?_, ?_⟩
      · simp only [processItemChildren]
        have hb1 := h1.1
        have hb2 := h2.1
        omega
      · simp only [processItemChildren]
        rw [blocksSeqIds_append, h1.2, h2.2]
        exact range'_glue _ _ _ h1.1 h2.1
    | code lang v =>
      have h1 := processNode_seqIds c (.code lang v)
      have h2 := processItemChildren_seqIds (processNode c (.code lang v)).1 rest
      refine ⟨?_, ?_⟩
      · simp only [processItemChildren]
        have hb1 := h1.1
        have hb2 := h2.1
        omega
      · simp only [processItemChildren]
        rw [blocksSeqIds_append, h1.2, h2.2]
        exact range'_glue _ _ _ h1.1 h2.1
    | blockquote ch =>
      have h1 := processNode_seqIds c (.blockquote ch)
      have h2 := processItemChildren_seqIds (processNode c (.blockquote ch)).1 rest
      refine ⟨?_, ?_⟩
      · simp only [processItemChildren]
        have hb1 := h1.1
        have hb2 := h2.1
        omega
      · simp only [processItemChildren]
        rw [blocksSeqIds_append, h1.2, h2.2]
        exact range'_glue _ _ _ h1.1 h2.1
    | image alt url =>
      have h1 := processNode_seqIds c (.image alt url)
      have h2 := processItemChildren_seqIds (processNode c (.image alt url)).1 rest
      refine ⟨?_, ?_⟩
      · simp only [processItemChildren]
        have hb1 := h1.1
        have hb2 := h2.1
        omega
      · simp only [processItemChildren]
        rw [blocksSeqIds_append, h1.2, h2.2]
        exact range'_glue _ _ _ h1.1 h2.1
    | table rows =>
      have h1 := processNode_seqIds c (.table rows)
      have h2 := processItemChildren_seqIds (processNode c (.table rows)).1 rest
      refine ⟨?_, ?_⟩
      · simp only [processItemChildren]
        have hb1 := h1.1
        have hb2 := h2.1
        omega
      · simp only [processItemChildren]
        rw [blocksSeqIds_append, h1.2, h2.2]
        exact range'_glue _ _ _ h1.1 h2.1
    | text v =>
      have h1 := processNode_seqIds c (.text v)
      have h2 := processItemChildren_seqIds (processNode c (.text v)).1 rest
      refine ⟨?_, ?_⟩
      · simp only [processItemChildren]
        have hb1 := h1.1
        have hb2 := h2.1
        omega
      · simp only [processItemChildren]
        rw [blocksSeqIds_append, h1.2, h2.2]
        exact range'_glue _ _ _ h1.1 h2.1
    | emphasis ch =>
      have h1 := processNode_seqIds c (.emphasis ch)
      have h2 := processItemChildren_seqIds (processNode c (.emphasis ch)).1 rest
      refine ⟨?_, ?_⟩
      · simp only [processItemChildren]
        have hb1 := h1.1
        have hb2 := h2.1
        omega
      · simp only [processItemChildren]
        rw [blocksSeqIds_append, h1.2, h2.2]
        exact range'_glue _ _ _ h1.1 h2.1
    | strong ch =>
      have h1 := processNode_seqIds c (.strong ch)
      have h2 := processItemChildren_seqIds (processNode c (.strong ch)).1 rest
      refine ⟨?_, ?_⟩
      · simp only [processItemChildren]
        have hb1 := h1.1
        have hb2 := h2.1
        omega
      · simp only [processItemChildren]
        rw [blocksSeqIds_append, h1.2, h2.2]
        exact range'_glue _ _ _ h1.1 h2.1
    | inlineCode v =>
      have h1 := processNode_seqIds c (.inlineCode v)
      have h2 := processItemChildren_seqIds (processNode c (.inlineCode v)).1 rest
      refine ⟨?_, ?_⟩
      · simp only [processItemChildren]
        have hb1 := h1.1
        have hb2 := h2.1
        omega
      · simp only [processItemChildren]
        rw [blocksSeqIds_append, h1.2, h2.2]
        exact range'_glue _ _ _ h1.1 h2.1
    | link u ch =>
      have h1 := processNode_seqIds c (.link u ch)
      have h2 := processItemChildren_seqIds (processNode c (.link u ch)).1 rest
      refine ⟨?_, ?_⟩
      · simp only [processItemChildren]
        have hb1 := h1.1
        have hb2 := h2.1
        omega
      · simp only [processItemChildren]
        rw [blocksSeqIds_append, h1.2, h2.2]
        exact range'_glue _ _ _ h1.1 h2.1
    | br =>
      have h1 := processNode_seqIds c .br
      have h2 := processItemChildren_seqIds (processNode c .br).1 rest
      refine ⟨?_, ?_⟩
      · simp only [processItemChildren]
        have hb1 := h1.1
        have hb2 := h2.1
        omega
      · simp only [processItemChildren]
        rw [blocksSeqIds_append, h1.2, h2.2]
        exact range'_glue _ _ _ h1.1 h2.1
    | html v =>
      have h1 := processNode_seqIds c (.html v)
      have h2 := processItemChildren_seqIds (processNode c (.html v)).1 rest
      refine ⟨?_, ?_⟩
      · simp only [processItemChildren]
        have hb1 := h1.1
        have hb2 := h2.1
        omega
      · simp only [processItemChildren]
        rw [blocksSeqIds_append, h1.2, h2.2]
        exact range'_glue _ _ _ h1.1 h2.1
    | thematicBreak =>
      have h1 := processNode_seqIds c .thematicBreak
      have h2 := processItemChildren_seqIds (processNode c .thematicBreak).1 rest
      refine ⟨?_, ?_⟩
      · simp only [processItemChildren]
        have hb1 := h1.1
        have hb2 := h2.1
        omega
      · simp only [processItemChildren]
        rw [blocksSeqIds_append, h1.2, h2.2]
        exact range'_glue _ _ _ h1.1 h2.1
    | other v =>
      have h1 := processNode_seqIds c (.other v)
      have h2 := processItemChildren_seqIds (processNode c (.other v)).1 rest
      refine ⟨?_, ?_⟩
      · simp only [processItemChildren]
        have hb1 := h1.1
        have hb2 := h2.1
        omega
      · simp only [processItemChildren]
        rw [blocksSeqIds_append, h1.2, h2.2]
        exact range'_glue _ _ _ h1.1 h2.1
termination_by (sizeOf ns, 0)

end

/-- Helper: the top-level walk allocates the dense id run `c+1 ..`. -/
theorem processRoot_seqIds (c : Nat) (ns : List MdNode) :
    c ≤ (processRoot c ns).1 ∧
    blocksSeqIds (processRoot c ns).2 =
      List.range' (c + 1) ((processRoot c ns).1 - c) := by
  induction ns generalizing c with
  | nil => simp [processRoot, blocksSeqIds]
  | cons n rest ih =>
    rcases h : rootSpecialCase n with _ | ob
    · have h1 := processNode_seqIds c n
      have h2 := ih (processNode c n).1
      refine ⟨?_, ?_⟩
      · simp only [processRoot, h]
        have hb1 := h1.1
        have hb2 := h2.1
        omega
      · simp only [processRoot, h]
        rw [blocksSeqIds_append, h1.2, h2.2]
        exact range'_glue _ _ _ h1.1 h2.1
    · rcases ob with _ | b
      · have h2 := ih c
        refine ⟨?_, ?_⟩
        · simp only [processRoot, h]
          simpa using h2.1
        · simp only [processRoot, h]
          simpa using h2.2
      · have hb := rootSpecialCase_noIds n (some b) b h rfl
        have h2 := ih c
        refine ⟨?_, ?_⟩
        · simp only [processRoot, h]
          simpa using h2.1
        · simp only [processRoot, h]
          simp [blocksSeqIds, hb]
          exact h2.2

/-- Helper: a converted section's ids are exactly the dense local run
`1 .. mdastLocalSeqCount root`. -/
theorem mdastToDocxModel_seqIds (root : List MdNode) :
    blocksSeqIds (mdastToDocxModel root).children =
      List.range' 1 (mdastLocalSeqCount root) := by
  have h := processRoot_seqIds 0 root
  simpa [mdastToDocxModel, mdastLocalSeqCount] using h.2

/-- Helper: the spec-modelled renderer shifts a section's dense local run by
the offset and reports `offset + local maximum`. -/
theorem modelToDocxNumbering_spec (root : List MdNode) (offset : Nat) :
    (modelToDocxNumbering (mdastToDocxModel root) offset).1 =
      List.range' (offset + 1) (mdastLocalSeqCount root) ∧
    (modelToDocxNumbering (mdastToDocxModel root) offset).2 =
      offset + mdastLocalSeqCount root := by
  unfold modelToDocxNumbering
  rw [mdastToDocxModel_seqIds]
  exact ⟨List.map_add_range' offset 1 (mdastLocalSeqCount root) 1,
    by rw [foldr_max_range'_one]⟩

/-- Helper: the per-section assembly loop produces exactly the spec-side
disjoint dense ranges and the running total as `maxSequenceId`. -/
theorem assembleSectionsFrom_spec (sections : List (List MdNode)) :
    ∀ m, (assembleSectionsFrom m sections).1 = specSeqRangesFrom m sections ∧
      (assembleSectionsFrom m sections).2 =
        m + (sections.map mdastLocalSeqCount).sum := by
  induction sections with
  | nil => intro m; simp [assembleSectionsFrom, specSeqRangesFrom]
  | cons s ss ih =>
    intro m
    have hr := modelToDocxNumbering_spec s m
    have hmax : max m (m + mdastLocalSeqCount s) = m + mdastLocalSeqCount s := by
      omega
    have hi := ih (m + mdastLocalSeqCount s)
    refine ⟨?_, ?_⟩
    · simp only [assembleSectionsFrom, specSeqRangesFrom]
      rw [hr.1, hr.2, hmax, hi.1]
    · simp only [assembleSectionsFrom]
      rw [hr.2, hmax, hi.2]
      simp [List.sum_cons]
      omega

/-- Helper: the spec-side ranges flatten to one dense global run. -/
theorem specSeqRangesFrom_flatten (sections : List (List MdNode)) :
    ∀ m, (specSeqRangesFrom m sections).flatten =
      List.range' (m + 1) ((sections.map mdastLocalSeqCount).sum) := by
  induction sections with
  | nil => intro m; simp [specSeqRangesFrom]
  | cons s ss ih =>
    intro m
    simp only [specSeqRangesFrom, List.flatten_cons, ih (m + mdastLocalSeqCount s)]
    have h := List.range'_append (m + 1) (mdastLocalSeqCount s)
      ((ss.map mdastLocalSeqCount).sum) 1
    rw [show (m + 1) + 1 * mdastLocalSeqCount s = (m + mdastLocalSeqCount s) + 1 by
      omega] at h
    rw [h, List.map_cons, List.sum_cons,
      Nat.add_comm ((List.map mdastLocalSeqCount ss).sum) (mdastLocalSeqCount s)]

/-- C2: over any assembly pass, the global sequence ids assigned to ordered
lists form per-section disjoint dense ranges, each starting right after the
running maximum of all previously processed sections (the spec-side
`specSeqRanges`); their concatenation is exactly the dense run
`1 .. maxSequenceId` with `maxSequenceId = m1 + ... + mN`; the emitted
numbering-configuration references cover exactly ids `1 .. maxSequenceId`
(they are the references of the assigned ids, in order); and two sections
each holding one ordered list get ids 1 and 2, never both 1. -/
theorem c2_sequence_ids_dense_disjoint_ranges :
    (∀ sections : List (List MdNode),
      (assembleSections sections).1 = specSeqRanges sections ∧
      ((assembleSections sections).1).flatten =
        List.range' 1 (assembleSections sections).2 ∧
      (assembleSections sections).2 = (sections.map mdastLocalSeqCount).sum ∧
      numberingConfigRefs (assembleSections sections).2 =
        (((assembleSections sections).1).flatten).map
          (fun i => "numbered-list-" ++ toString i)) ∧
    (assembleSections [[.list true [.mk []]], [.list true [.mk []]]]).1 =
      [[1], [2]] := by
  constructor
  · intro sections
    simp only [assembleSections, specSeqRanges]
    have h := assembleSectionsFrom_spec sections 0
    have hflat := specSeqRangesFrom_flatten sections 0
    have hsum : (assembleSectionsFrom 0 sections).2 =
        (sections.map mdastLocalSeqCount).sum := by
      rw [h.2]
      omega
    have hF : ((assembleSectionsFrom 0 sections).1).flatten =
        List.range' 1 (assembleSectionsFrom 0 sections).2 := by
      rw [h.1, hflat, hsum]
    exact ⟨h.1, hF, hsum, by rw [hF]; rfl⟩
  · have h1 : mdastLocalSeqCount [MdNode.list true [MdListItem.mk []]] = 1 := by
      simp [mdastLocalSeqCount, processRoot, rootSpecialCase, processNode,
        processListNode, processItems, processItemChildren]
    have h := assembleSectionsFrom_spec
      [[MdNode.list true [MdListItem.mk []]], [MdNode.list true [MdListItem.mk []]]] 0
    simp only [assembleSections]
    rw [h.1]
    simp [specSeqRangesFrom, h1]

/-- Helper: once the flag is set, every further placeholder is dropped with a
diagnostic and nothing is inserted. -/
theorem replaceToc_inserted (l : List RChild) (toc : List TocParagraph) :
    replaceTocPlaceholders l toc true =
      (removeTocPlaceholders l, true, countPlaceholders l) := by
  induction l with
  | nil => simp [replaceTocPlaceholders, removeTocPlaceholders, countPlaceholders]
  | cons c rest ih =>
    cases c with
    | tocPlaceholder =>
      simp [replaceTocPlaceholders, removeTocPlaceholders, countPlaceholders, ih]
    | toc p =>
      simp [replaceTocPlaceholders, removeTocPlaceholders, countPlaceholders, ih]
    | node k =>
      simp [replaceTocPlaceholders, removeTocPlaceholders, countPlaceholders, ih]

/-- Helper: with empty TOC content every placeholder is dropped with a
diagnostic and the flag never changes. -/
theorem replaceToc_emptyToc (l : List RChild) (ins : Bool) :
    replaceTocPlaceholders l [] ins =
      (removeTocPlaceholders l, ins, countPlaceholders l) := by
  induction l with
  | nil => simp [replaceTocPlaceholders, removeTocPlaceholders, countPlaceholders]
  | cons c rest ih =>
    cases c with
    | tocPlaceholder =>
      simp [replaceTocPlaceholders, removeTocPlaceholders, countPlaceholders, ih]
    | toc p =>
      simp [replaceTocPlaceholders, removeTocPlaceholders, countPlaceholders, ih]
    | node k =>
      simp [replaceTocPlaceholders, removeTocPlaceholders, countPlaceholders, ih]

/-- Helper: with pending flag and non-empty TOC content, one list resolves to
its spliced form, reporting whether the splice happened and warning once per
unreplaced placeholder. -/
theorem replaceToc_insert (l : List RChild) (toc : List TocParagraph)
    (h : toc ≠ []) :
    replaceTocPlaceholders l toc false =
      ((spliceFirst l (toc.map RChild.toc)).1,
        (spliceFirst l (toc.map RChild.toc)).2,
        countPlaceholders l - 1) := by
  induction l with
  | nil => simp [replaceTocPlaceholders, spliceFirst, countPlaceholders]
  | cons c rest ih =>
    cases c with
    | tocPlaceholder =>
      have hl : 0 < toc.length := List.length_pos.mpr h
      simp [replaceTocPlaceholders, spliceFirst, countPlaceholders, hl,
        replaceToc_inserted]
    | toc p =>
      simp [replaceTocPlaceholders, spliceFirst, countPlaceholders, ih]
    | node k =>
      simp [replaceTocPlaceholders, spliceFirst, countPlaceholders, ih]

/-- Helper: the splice flag tells whether the list had any placeholder. -/
theorem spliceFirst_flag (l : List RChild) (toc : List RChild) :
    ((spliceFirst l toc).2 = true → 1 ≤ countPlaceholders l) ∧
    ((spliceFirst l toc).2 = false → countPlaceholders l = 0) := by
  induction l with
  | nil => simp [spliceFirst, countPlaceholders]
  | cons c rest ih =>
    cases c with
    | tocPlaceholder => simp [spliceFirst, countPlaceholders]
    | toc p => simpa [spliceFirst, countPlaceholders] using ih
    | node k => simpa [spliceFirst, countPlaceholders] using ih

/-- Helper: a pass whose flag is already set only removes placeholders. -/
theorem assembleTocPassFrom_inserted (toc : List TocParagraph)
    (sections : List (List RChild)) :
    assembleTocPassFrom true toc sections =
      (sections.map removeTocPlaceholders, true, countPlaceholdersAll sections) := by
  induction sections with
  | nil => simp [assembleTocPassFrom, countPlaceholdersAll]
  | cons s ss ih =>
    simp [assembleTocPassFrom, replaceToc_inserted, ih, countPlaceholdersAll]

/-- Helper: a pending pass with non-empty TOC content splices exactly the
globally first placeholder and warns once per other placeholder. -/
theorem assembleTocPassFrom_insert (toc : List TocParagraph) (h : toc ≠ []) :
    ∀ sections : List (List RChild),
      (assembleTocPassFrom false toc sections).1 =
        spliceFirstGlobal sections (toc.map RChild.toc) ∧
      (assembleTocPassFrom false toc sections).2.2 =
        countPlaceholdersAll sections - 1 := by
  intro sections
  induction sections with
  | nil => simp [assembleTocPassFrom, spliceFirstGlobal, countPlaceholdersAll]
  | cons s ss ih =>
    have hr := replaceToc_insert s toc h
    cases hsp : (spliceFirst s (toc.map RChild.toc)).2 with
    | false =>
      have hc := (spliceFirst_flag s (toc.map RChild.toc)).2 hsp
      constructor
      · simp only [assembleTocPassFrom]
        rw [hr]
        simp [hsp, spliceFirstGlobal, ih.1]
      · simp only [assembleTocPassFrom]
        rw [hr]
        simp only [hsp, ih.2, countPlaceholdersAll, List.map_cons, List.sum_cons]
        omega
    | true =>
      have hc := (spliceFirst_flag s (toc.map RChild.toc)).1 hsp
      constructor
      · simp only [assembleTocPassFrom]
        rw [hr]
        simp [hsp, spliceFirstGlobal, assembleTocPassFrom_inserted]
      · simp only [assembleTocPassFrom]
        rw [hr]
        simp only [hsp, assembleTocPassFrom_inserted, countPlaceholdersAll,
          List.map_cons, List.sum_cons]
        omega

/-- Helper: a pending pass with empty TOC content removes placeholders and
warns at every one of them. -/
theorem assembleTocPassFrom_emptyToc (sections : List (List RChild)) :
    assembleTocPassFrom false [] sections =
      (sections.map removeTocPlaceholders, false, countPlaceholdersAll sections) := by
  induction sections with
  | nil => simp [assembleTocPassFrom, countPlaceholdersAll]
  | cons s ss ih =>
    simp [assembleTocPassFrom, replaceToc_emptyToc, ih, countPlaceholdersAll]

/-- C3: per assembly pass, at most one TOC placeholder is ever replaced with
generated content — exactly the globally first one (in section order) when
the generated content is non-empty — while every other placeholder sighting
inserts nothing and produces one non-fatal diagnostic; with zero registered
headings the generated content is empty, so placeholders are removed and
only warned about; the concrete two-placeholder pass inserts once and warns
once. -/
theorem c3_toc_placeholder_replaced_at_most_once :
    (∀ st, buildTocContent [] st = []) ∧
    (∀ (sections : List (List RChild)) st,
      (assembleTocPass sections (buildTocContent [] st)).1 =
        sections.map removeTocPlaceholders) ∧
    (∀ (sections : List (List RChild)) (toc : List TocParagraph), toc ≠ [] →
      (assembleTocPass sections toc).1 =
        spliceFirstGlobal sections (toc.map RChild.toc) ∧
      (assembleTocPass sections toc).2.2 = countPlaceholdersAll sections - 1) ∧
    (∀ sections : List (List RChild),
      (assembleTocPass sections []).2.2 = countPlaceholdersAll sections) ∧
    (assembleTocPass [[.tocPlaceholder, .node 7], [.tocPlaceholder]]
        [.title] =
      ([[.toc .title, .node 7], []], true, 1)) := by
  refine ⟨fun st => by simp [buildTocContent], ?_, ?_, ?_, by decide⟩
  · intro sections st
    have hb : buildTocContent [] st = [] := by simp [buildTocContent]
    rw [hb]
    show (assembleTocPassFrom false [] sections).1 = _
    rw [assembleTocPassFrom_emptyToc]
  · intro sections toc h
    exact assembleTocPassFrom_insert toc h sections
  · intro sections
    show (assembleTocPassFrom false [] sections).2.2 = _
    rw [assembleTocPassFrom_emptyToc]

/-- Witness for C3 at a concrete two-placeholder document with one heading's
worth of TOC content. -/
theorem c3_toc_placeholder_replaced_at_most_once_witness :
    (assembleTocPass [[RChild.tocPlaceholder], [RChild.tocPlaceholder]]
        [TocParagraph.title]).1 =
      spliceFirstGlobal [[RChild.tocPlaceholder], [RChild.tocPlaceholder]]
        [RChild.toc TocParagraph.title] :=
  (c3_toc_placeholder_replaced_at_most_once.2.2.1
    [[RChild.tocPlaceholder], [RChild.tocPlaceholder]] [TocParagraph.title]
    (by decide)).1
